import Mathlib

/-!
# Benchmark client: metrics recorder, protocol clients, load orchestration

A shallow embedding of `cmd/client/main.go`, of the cache and the gRPC handlers of
`cmd/server/main.go`, and of `testutil/generate_fixtures.go`.

* Go `int64` values (`time.Duration` included) are integers kept in the signed
  64-bit range by `wrap64` after every arithmetic operation.
* Go `float64` values are modelled by `F64`: sign and exact rational magnitude
  of an IEEE-754 binary64 number, or an infinity, or NaN.  Every arithmetic
  result is rounded to binary64 (nearest, ties to even) by `F64.round`.
* Clock readings (`time.Now()`) are inputs of the model: a reading is the
  monotonic nanosecond counter carried by every `time.Time` that `time.Now`
  returns.
* The mutex of `ClientAnalytics` serialises the calls of `recordMetrics`; the
  model applies the calls one after the other in the order in which the lock
  is taken, and that order is chosen by an arbitrary scheduler.
-/

namespace Benchmark

/-! ## Machine integers -/

/-- Two's-complement reduction of an integer to the signed 64-bit range. -/
def wrap64 (x : Int) : Int := (x + 9223372036854775808) % 18446744073709551616 - 9223372036854775808

/-- The range of a Go `int64`. -/
def isInt64 (x : Int) : Prop := -9223372036854775808 ≤ x ∧ x < 9223372036854775808

instance (x : Int) : Decidable (isInt64 x) := by unfold isInt64; infer_instance

/-! ## float64 -/

/-- A binary64 value: `num neg mag` is the finite number of magnitude `mag`
(a non-negative rational) and sign bit `neg`, so `num true 0` is `-0`. -/
inductive F64 where
  | num (neg : Bool) (mag : ℚ)
  | inf (neg : Bool)
  | nan
  deriving DecidableEq

namespace F64

/-- Round to the nearest integer, ties to the even one. -/
def roundHalfEven (t : ℚ) : Int :=
  let f := ⌊t⌋
  let r := t - f
  if r < 1 / 2 then f
  else if 1 / 2 < r then f + 1
  else if f % 2 = 0 then f
  else f + 1

/-- The spacing of binary64 numbers around the positive magnitude `m`
(53 significant bits, smallest exponent `-1022`). -/
def quantum (m : ℚ) : ℚ := (2 : ℚ) ^ (max (Int.log 2 m) (-1022) - 52)

/-- Rounding of the exact magnitude `m ≥ 0` with sign bit `neg` to binary64. -/
def round (neg : Bool) (m : ℚ) : F64 :=
  if m = 0 then num neg 0
  else
    let q := quantum m
    let r := (roundHalfEven (m / q) : ℚ) * q
    if (2 : ℚ) ^ 1024 ≤ r then inf neg else num neg r

/-- Conversion `float64(n)` of an integer. -/
def ofInt (n : Int) : F64 := round (decide (n < 0)) (n.natAbs : ℚ)

/-- The signed rational value of a sign and a magnitude. -/
def signed (neg : Bool) (m : ℚ) : ℚ := if neg then -m else m

/-- Binary64 addition. -/
def add : F64 → F64 → F64
  | nan, _ => nan
  | _, nan => nan
  | inf s, inf t => if s = t then inf s else nan
  | inf s, num _ _ => inf s
  | num _ _, inf t => inf t
  | num s m, num t n =>
    let v := signed s m + signed t n
    if v = 0 then num (s && t) 0 else round (decide (v < 0)) |v|

/-- Binary64 division; a division by zero gives an infinity or NaN, never a
run-time fault. -/
def div : F64 → F64 → F64
  | nan, _ => nan
  | _, nan => nan
  | inf _, inf _ => nan
  | inf s, num t _ => inf (xor s t)
  | num s _, inf t => num (xor s t) 0
  | num s m, num t n =>
    if n = 0 then (if m = 0 then nan else inf (xor s t))
    else round (xor s t) (m / n)

/-- Whether the value is `+0` or `-0`. -/
def isZero : F64 → Bool
  | num _ m => decide (m = 0)
  | _ => false

/-- Whether the value is an infinity or NaN (`math.IsInf(f, 0) || math.IsNaN(f)`). -/
def isInfOrNaN : F64 → Bool
  | num _ _ => false
  | _ => true

end F64

/-! ## Package `time` -/

namespace time

/-! A `time.Duration` is an `int64` count of nanoseconds.  A `time.Time` is
represented by its monotonic reading, an `int64` count of nanoseconds since the
start of the process. -/

def Second : Int := 1000000000

def Millisecond : Int := 1000000

def Hour : Int := 3600000000000

def maxDuration : Int := 9223372036854775807

def minDuration : Int := -9223372036854775808

/-- `subMono`: the saturating difference of two monotonic readings. -/
def subMono (t u : Int) : Int :=
  let d := wrap64 (t - u)
  if d < 0 ∧ t > u then maxDuration
  else if d > 0 ∧ t < u then minDuration
  else d

/-- `t.Sub(u)` for two readings of `time.Now()`. -/
def Sub (t u : Int) : Int := subMono t u

/-- `time.Since(start)` evaluated when the clock reads `now`. -/
def Since (start now : Int) : Int := subMono now start

/-- `Duration.Seconds`: `float64(d / Second) + float64(d % Second) / 1e9`. -/
def Seconds (d : Int) : F64 :=
  F64.add (F64.ofInt (Int.tdiv d Second))
    (F64.div (F64.ofInt (Int.tmod d Second)) (F64.num false 1000000000))

end time

/-! ## Metrics recorder -/

def ProtocolRest : String := "rest"

def ProtocolGrpc : String := "grpc"

def ProtocolGrpcRaw : String := "grpc-raw"

/-- The struct `ClientAnalytics` without its mutex. -/
structure ClientAnalytics where
  Protocol : String
  TotalRequests : Int
  SuccessRequests : Int
  FailedRequests : Int
  AverageLatency : Int
  MinLatency : Int
  MaxLatency : Int
  TotalLatency : Int
  TotalBytes : Int
  AverageBodySize : F64
  StartTime : Int
  EndTime : Int
  TotalDuration : Int
  RequestsPerSec : F64
  BytesPerSec : F64
  MockSize : Int
  deriving DecidableEq

/-- One invocation of `recordMetrics`: its three arguments and the reading of
`time.Now()` taken inside the critical section. -/
structure Call where
  latency : Int
  bodySize : Int
  success : Bool
  now : Int
  deriving DecidableEq

/-- The method `recordMetrics`.  The result is `none` when the integer division
by `TotalRequests` faults (a Go run-time panic: integer divide by zero). -/
def recordMetrics (a : ClientAnalytics) (latency : Int) (bodySize : Int)
    (success : Bool) (now : Int) : Option ClientAnalytics :=
  let totalRequests := wrap64 (a.TotalRequests + 1)
  let successRequests := if success then wrap64 (a.SuccessRequests + 1) else a.SuccessRequests
  let failedRequests := if success then a.FailedRequests else wrap64 (a.FailedRequests + 1)
  let totalLatency := wrap64 (a.TotalLatency + latency)
  let totalBytes := wrap64 (a.TotalBytes + wrap64 bodySize)
  let minLatency := if latency < a.MinLatency ∨ a.MinLatency = 0 then latency else a.MinLatency
  let maxLatency := if latency > a.MaxLatency then latency else a.MaxLatency
  if totalRequests = 0 then none
  else
    let totalDuration := time.Sub now a.StartTime
    some
      { Protocol := a.Protocol
        TotalRequests := totalRequests
        SuccessRequests := successRequests
        FailedRequests := failedRequests
        AverageLatency := wrap64 (Int.tdiv totalLatency totalRequests)
        MinLatency := minLatency
        MaxLatency := maxLatency
        TotalLatency := totalLatency
        TotalBytes := totalBytes
        AverageBodySize := F64.div (F64.ofInt totalBytes) (F64.ofInt totalRequests)
        StartTime := a.StartTime
        EndTime := now
        TotalDuration := totalDuration
        RequestsPerSec := F64.div (F64.ofInt totalRequests) (time.Seconds totalDuration)
        BytesPerSec := F64.div (F64.ofInt totalBytes) (time.Seconds totalDuration)
        MockSize := a.MockSize }

/-- The analytics literal built at the start of a run:
`&ClientAnalytics{Protocol: p, MinLatency: time.Hour, StartTime: time.Now(), MockSize: size}`;
every other field has its zero value. -/
def newAnalytics (protocol : String) (start : Int) (size : Int) : ClientAnalytics :=
  { Protocol := protocol
    TotalRequests := 0
    SuccessRequests := 0
    FailedRequests := 0
    AverageLatency := 0
    MinLatency := time.Hour
    MaxLatency := 0
    TotalLatency := 0
    TotalBytes := 0
    AverageBodySize := F64.num false 0
    StartTime := start
    EndTime := 0
    TotalDuration := 0
    RequestsPerSec := F64.num false 0
    BytesPerSec := F64.num false 0
    MockSize := size }

/-- Apply one recorded call to the analytics. -/
def applyCall (a : ClientAnalytics) (c : Call) : Option ClientAnalytics :=
  recordMetrics a c.latency c.bodySize c.success c.now

/-- Apply the calls in the order in which the lock serialises them; `none` as
soon as one of them panics. -/
def applyCalls : ClientAnalytics → List Call → Option ClientAnalytics
  | a, [] => some a
  | a, c :: cs =>
    match applyCall a c with
    | none => none
    | some b => applyCalls b cs

/-- The analytics observed after each completed call, in order. -/
def trace : ClientAnalytics → List Call → List ClientAnalytics
  | _, [] => []
  | a, c :: cs =>
    match applyCall a c with
    | none => []
    | some b => b :: trace b cs

/-! ## Reference aggregates of a sequence of calls -/

def sumLatency (cs : List Call) : Int := (cs.map Call.latency).sum

def sumBytes (cs : List Call) : Int := (cs.map Call.bodySize).sum

def countSuccess (cs : List Call) : Nat := (cs.filter (fun c => c.success)).length

def countFailed (cs : List Call) : Nat := (cs.filter (fun c => !c.success)).length

/-- The counter equation `TotalRequests == SuccessRequests + FailedRequests`
as Go evaluates it, in `int64` arithmetic. -/
def CountersAgree (a : ClientAnalytics) : Prop :=
  a.TotalRequests = wrap64 (a.SuccessRequests + a.FailedRequests)

/-- The counter equation over the integers, with counters that did not wrap. -/
def CountersExact (a : ClientAnalytics) : Prop :=
  0 ≤ a.SuccessRequests ∧ 0 ≤ a.FailedRequests ∧
    a.TotalRequests = a.SuccessRequests + a.FailedRequests

/-- Every accumulator holds an `int64`. -/
def InRange (a : ClientAnalytics) : Prop :=
  isInt64 a.SuccessRequests ∧ isInt64 a.FailedRequests ∧ isInt64 a.TotalLatency ∧
    isInt64 a.TotalBytes

/-- The derived fields as `recordMetrics` recomputes them from the accumulators. -/
def Derived (b : ClientAnalytics) : Prop :=
  b.AverageLatency = wrap64 (Int.tdiv b.TotalLatency b.TotalRequests) ∧
  b.AverageBodySize = F64.div (F64.ofInt b.TotalBytes) (F64.ofInt b.TotalRequests) ∧
  b.TotalDuration = time.Sub b.EndTime b.StartTime ∧
  b.RequestsPerSec = F64.div (F64.ofInt b.TotalRequests) (time.Seconds b.TotalDuration) ∧
  b.BytesPerSec = F64.div (F64.ofInt b.TotalBytes) (time.Seconds b.TotalDuration)

/-! ## Protocol clients

Each request function is given the outcome of its external calls (transport,
body read, decoding) and the clock readings it takes; its value is the list of
`recordMetrics` invocations performed on the path taken, in order. -/

/-- What one execution of `makeRestRequest` observes. -/
structure RestEnv where
  /-- Reading of `time.Now()` at entry. -/
  startTime : Int
  /-- Whether `restClient.Get` returned an error. -/
  getErr : Bool
  /-- Whether `io.ReadAll(resp.Body)` returned an error. -/
  readErr : Bool
  /-- Whether `json.Unmarshal(body, &population)` returned an error. -/
  unmarshalErr : Bool
  /-- The value `len(body)`. -/
  bodyLen : Nat
  /-- The value `resp.StatusCode`. -/
  statusCode : Int
  /-- Clock reading at the `time.Since(startTime)` of the path taken. -/
  doneTime : Int
  /-- Reading of `time.Now()` inside `recordMetrics`. -/
  recordTime : Int

def StatusOK : Int := 200

/-- The function `makeRestRequest`. -/
def makeRestRequest (env : RestEnv) : List Call :=
  if env.getErr then
    [⟨time.Since env.startTime env.doneTime, 0, false, env.recordTime⟩]
  else if env.readErr then
    [⟨time.Since env.startTime env.doneTime, 0, false, env.recordTime⟩]
  else if env.unmarshalErr then
    [⟨time.Since env.startTime env.doneTime, 0, false, env.recordTime⟩]
  else
    let latency := time.Since env.startTime env.doneTime
    [⟨latency, env.bodyLen, decide (env.statusCode = StatusOK), env.recordTime⟩]

/-- What one execution of `makeGrpcRequest` observes. -/
structure GrpcEnv where
  startTime : Int
  /-- Whether `client.GetPopulation` returned an error. -/
  callErr : Bool
  /-- The value `proto.Size(resp)`. -/
  respSize : Nat
  doneTime : Int
  recordTime : Int

/-- The function `makeGrpcRequest`. -/
def makeGrpcRequest (env : GrpcEnv) : List Call :=
  if env.callErr then
    [⟨time.Since env.startTime env.doneTime, 0, false, env.recordTime⟩]
  else
    let latency := time.Since env.startTime env.doneTime
    [⟨latency, env.respSize, true, env.recordTime⟩]

/-- What one execution of `makeGrpcRequestRaw` observes. -/
structure GrpcRawEnv where
  startTime : Int
  /-- Whether `client.GetPopulationRaw` returned an error. -/
  callErr : Bool
  /-- Whether `proto.Unmarshal(resp.Data, population)` returned an error. -/
  unmarshalErr : Bool
  /-- The value `proto.Size(resp)`, the size of the wrapper message. -/
  respSize : Nat
  doneTime : Int
  recordTime : Int

/-- The function `makeGrpcRequestRaw`. -/
def makeGrpcRequestRaw (env : GrpcRawEnv) : List Call :=
  if env.callErr then
    [⟨time.Since env.startTime env.doneTime, 0, false, env.recordTime⟩]
  else if env.unmarshalErr then
    [⟨time.Since env.startTime env.doneTime, 0, false, env.recordTime⟩]
  else
    let latency := time.Since env.startTime env.doneTime
    [⟨latency, env.respSize, true, env.recordTime⟩]

/-- One request of any of the three variants. -/
inductive RequestEnv where
  | rest (env : RestEnv)
  | grpc (env : GrpcEnv)
  | grpcRaw (env : GrpcRawEnv)

namespace RequestEnv

/-- The request function of the variant. -/
def perform : RequestEnv → List Call
  | rest env => makeRestRequest env
  | grpc env => makeGrpcRequest env
  | grpcRaw env => makeGrpcRequestRaw env

/-- Whether the transport call, the body read or the decode step failed. -/
def faulted : RequestEnv → Bool
  | rest env => env.getErr || env.readErr || env.unmarshalErr
  | grpc env => env.callErr
  | grpcRaw env => env.callErr || env.unmarshalErr

/-- Whether the request succeeded: no fault, and status 200 for the REST variant. -/
def succeeded : RequestEnv → Bool
  | rest env => !env.getErr && !env.readErr && !env.unmarshalErr && decide (env.statusCode = StatusOK)
  | grpc env => !env.callErr
  | grpcRaw env => !env.callErr && !env.unmarshalErr

def startTime : RequestEnv → Int
  | rest env => env.startTime
  | grpc env => env.startTime
  | grpcRaw env => env.startTime

def doneTime : RequestEnv → Int
  | rest env => env.doneTime
  | grpc env => env.doneTime
  | grpcRaw env => env.doneTime

def recordTime : RequestEnv → Int
  | rest env => env.recordTime
  | grpc env => env.recordTime
  | grpcRaw env => env.recordTime

end RequestEnv

/-! ## Load orchestration -/

/-- Let worker `i` perform its next call, if it has one left. -/
def takeFrom {α : Type} : Nat → List (List α) → Option (α × List (List α))
  | _, [] => none
  | 0, [] :: _ => none
  | 0, (x :: xs) :: ws => some (x, xs :: ws)
  | i + 1, w :: ws => (takeFrom i ws).map (fun p => (p.1, w :: p.2))

/-- The order in which the lock serialises the calls of the workers: `picks`
names the worker that takes the lock next (a pick of a worker that has finished
is skipped); when `picks` is used up the remaining workers run to completion
one after the other, as `wg.Wait()` returns only when every worker is done. -/
def schedule {α : Type} : List Nat → List (List α) → List α
  | [], ws => ws.flatten
  | p :: ps, ws =>
    match takeFrom p ws with
    | some (x, rest) => x :: schedule ps rest
    | none => schedule ps ws

/-- The orders in which the calls of the workers can take the lock: each step
admits the next call of some worker, until every worker is done. -/
inductive Interleaving {α : Type} : List (List α) → List α → Prop where
  | done (ws : List (List α)) (h : ∀ w ∈ ws, w = []) : Interleaving ws []
  | step (ws : List (List α)) (i : Nat) (x : α) (rest : List (List α)) (l : List α)
      (h : takeFrom i ws = some (x, rest)) (t : Interleaving rest l) : Interleaving ws (x :: l)

/-- The calls of the goroutine `clientID`: `requestsPerClient` requests, one
after the other. -/
def workerCalls (request : Nat → Nat → List Call) (requestsPerClient clientID : Nat) :
    List Call :=
  (List.range requestsPerClient).flatMap (request clientID)

/-- All calls of a run in the order in which the lock admits them. -/
def serialised (concurrency requestsPerClient : Nat) (request : Nat → Nat → List Call)
    (picks : List Nat) : List Call :=
  schedule picks ((List.range concurrency).map (workerCalls request requestsPerClient))

/-- Observable steps of the client process. -/
inductive Event where
  /-- A `ClientAnalytics` was built for the protocol. -/
  | created (protocol : String)
  /-- The goroutine `clientID` was started. -/
  | spawned (protocol : String) (clientID : Nat)
  /-- A call of `recordMetrics` was made. -/
  | recorded (protocol : String) (c : Call)
  /-- The report of a run was printed by `printAnalytics`. -/
  | printed (a : ClientAnalytics)
  /-- The report array was written to the file. -/
  | fileWritten (path : String) (reports : List ClientAnalytics)

/-- Why the process stopped before the end of `main`. -/
inductive Stop where
  /-- The call `log.Fatalf(msg)`: diagnostic, then `os.Exit(1)`. -/
  | fatal (msg : String)
  /-- A run-time panic in a goroutine. -/
  | panicked

/-- A part of the run: what it did, and its value unless the process stopped. -/
structure Run (α : Type) where
  events : List Event
  result : Except Stop α

/-- Sequencing of two parts of the run. -/
def Run.andThen {α β : Type} (r : Run α) (k : α → Run β) : Run β :=
  match r.result with
  | .error e => ⟨r.events, .error e⟩
  | .ok a => ⟨r.events ++ (k a).events, (k a).result⟩

/-- The worker pool shared by the three benchmark functions: start
`concurrency` goroutines, each performing `requestsPerClient` requests, wait
for all of them, print the analytics and return it. -/
def runWorkers (analytics : ClientAnalytics) (concurrency requestsPerClient : Nat)
    (request : Nat → Nat → List Call) (picks : List Nat) : Run ClientAnalytics :=
  let calls := serialised concurrency requestsPerClient request picks
  let spawns := (List.range concurrency).map (Event.spawned analytics.Protocol)
  match applyCalls analytics calls with
  | none =>
    let made := calls.take ((trace analytics calls).length + 1)
    ⟨Event.created analytics.Protocol :: spawns ++ made.map (Event.recorded analytics.Protocol),
      .error Stop.panicked⟩
  | some a =>
    ⟨Event.created analytics.Protocol :: spawns
        ++ calls.map (Event.recorded analytics.Protocol) ++ [Event.printed a], .ok a⟩

/-- What a run of `benchmarkRest` observes. -/
structure RestBenchEnv where
  start : Int
  reqs : Nat → Nat → RestEnv
  picks : List Nat

/-- The function `benchmarkRest`. -/
def benchmarkRest (size : Int) (env : RestBenchEnv) : Run ClientAnalytics :=
  let analytics := newAnalytics ProtocolRest env.start size
  let concurrency := 100
  let requestsPerClient := 100
  runWorkers analytics concurrency requestsPerClient (fun i j => makeRestRequest (env.reqs i j))
    env.picks

/-- What a run of `benchmarkGrpc` observes. -/
structure GrpcBenchEnv where
  /-- Whether `grpc.Dial` returned an error. -/
  dialErr : Bool
  /-- Whether the test request `client.GetPopulation` returned an error. -/
  testErr : Bool
  start : Int
  reqs : Nat → Nat → GrpcEnv
  picks : List Nat

/-- The function `benchmarkGrpc`. -/
def benchmarkGrpc (size : Int) (env : GrpcBenchEnv) : Run ClientAnalytics :=
  if env.dialErr then ⟨[], .error (Stop.fatal "Failed to connect")⟩
  else if env.testErr then ⟨[], .error (Stop.fatal "Test request failed")⟩
  else
    let analytics := newAnalytics ProtocolGrpc env.start size
    let concurrency := 100
    let requestsPerClient := 100
    runWorkers analytics concurrency requestsPerClient (fun i j => makeGrpcRequest (env.reqs i j))
      env.picks

/-- What a run of `benchmarkGrpcRaw` observes. -/
structure GrpcRawBenchEnv where
  dialErr : Bool
  /-- Whether the test request `client.GetPopulationRaw` returned an error. -/
  testErr : Bool
  /-- Whether `proto.Unmarshal` of the test response returned an error. -/
  testUnmarshalErr : Bool
  start : Int
  reqs : Nat → Nat → GrpcRawEnv
  picks : List Nat

/-- The function `benchmarkGrpcRaw`. -/
def benchmarkGrpcRaw (size : Int) (env : GrpcRawBenchEnv) : Run ClientAnalytics :=
  if env.dialErr then ⟨[], .error (Stop.fatal "Failed to connect")⟩
  else if env.testErr then ⟨[], .error (Stop.fatal "Test request failed")⟩
  else if env.testUnmarshalErr then ⟨[], .error (Stop.fatal "Test request failed")⟩
  else
    let analytics := newAnalytics ProtocolGrpcRaw env.start size
    let concurrency := 100
    let requestsPerClient := 100
    runWorkers analytics concurrency requestsPerClient
      (fun i j => makeGrpcRequestRaw (env.reqs i j)) env.picks

/-! ## Run controller -/

/-- The struct `entity.Config`. -/
structure Config where
  MockSize : Int
  OutputDir : String
  OutputFile : String

/-- Whether `encoding/json` rejects the analytics: it has a `float64` field that
is an infinity or NaN (`UnsupportedValueError`). -/
def unsupportedValue (a : ClientAnalytics) : Bool :=
  a.AverageBodySize.isInfOrNaN || a.RequestsPerSec.isInfOrNaN || a.BytesPerSec.isInfOrNaN

/-- The call `json.MarshalIndent(analytics, "", "  ")`; the encoded document is
represented by the reports it encodes. -/
def jsonMarshalIndent (analytics : List ClientAnalytics) : Except String (List ClientAnalytics) :=
  if analytics.any unsupportedValue then .error "json: unsupported value" else .ok analytics

/-- What a run of the client process observes. -/
structure MainEnv where
  /-- Whether `env.Parse(&config)` returned an error. -/
  parseErr : Bool
  config : Config
  rest : RestBenchEnv
  grpc : GrpcBenchEnv
  grpcRaw : GrpcRawBenchEnv
  /-- Whether `os.WriteFile` returned an error. -/
  writeErr : Bool

/-- The function `main` of the client. -/
def main (env : MainEnv) : Run Unit :=
  if env.parseErr then ⟨[], .error (Stop.fatal "Failed to parse environment variables")⟩
  else
    (benchmarkRest env.config.MockSize env.rest).andThen fun restAnalytics =>
    (benchmarkGrpc env.config.MockSize env.grpc).andThen fun grpcAnalytics =>
    (benchmarkGrpcRaw env.config.MockSize env.grpcRaw).andThen fun grpcRawAnalytics =>
      let analytics := [restAnalytics, grpcAnalytics, grpcRawAnalytics]
      match jsonMarshalIndent analytics with
      | .error _ => ⟨[], .error (Stop.fatal "Failed to marshal analytics to JSON")⟩
      | .ok jsonData =>
        if env.writeErr then ⟨[], .ok ()⟩
        else ⟨[Event.fileWritten (env.config.OutputDir ++ "/" ++ env.config.OutputFile) jsonData],
          .ok ()⟩

/-- The exit status of the process. -/
def exitCode {α : Type} (r : Run α) : Nat :=
  match r.result with
  | .ok _ => 0
  | .error (Stop.fatal _) => 1
  | .error Stop.panicked => 2

namespace Event

/-- Whether the event is an action of the run of protocol `p`, or a written
report array that holds a report of protocol `p`. -/
def ofProtocol (p : String) : Event → Bool
  | created q => decide (q = p)
  | spawned q _ => decide (q = p)
  | recorded q _ => decide (q = p)
  | printed a => decide (a.Protocol = p)
  | fileWritten _ reports => reports.any (fun a => decide (a.Protocol = p))

/-- Whether the event is the writing of the report array. -/
def isFileWritten : Event → Bool
  | fileWritten _ _ => true
  | _ => false

end Event

/-! ## Sample environments -/

/-- A REST request that succeeds after 2ms with a body of 500 bytes and is
recorded one second after the start of the run. -/
def sampleRest : RestEnv := ⟨0, false, false, false, 500, 200, 2000000, 1000000000⟩

/-- A gRPC request that succeeds after 1ms with a message of 300 bytes. -/
def sampleGrpc : GrpcEnv := ⟨0, false, 300, 1000000, 1000000000⟩

/-- A raw gRPC request that succeeds after 1ms with a wrapper of 310 bytes. -/
def sampleGrpcRaw : GrpcRawEnv := ⟨0, false, false, 310, 1000000, 1000000000⟩

/-- A healthy run of the client in which only the final `os.WriteFile` fails. -/
def writeFailureEnv : MainEnv :=
  { parseErr := false
    config := ⟨1, "./output", "benchmark.json"⟩
    rest := ⟨0, fun _ _ => sampleRest, []⟩
    grpc := ⟨false, false, 0, fun _ _ => sampleGrpc, []⟩
    grpcRaw := ⟨false, false, false, 0, fun _ _ => sampleGrpcRaw, []⟩
    writeErr := true }

/-- A run of the client in which the test request of `benchmarkGrpc` fails. -/
def smokeFailureEnv : MainEnv :=
  { parseErr := false
    config := ⟨1, "./output", "benchmark.json"⟩
    rest := ⟨0, fun _ _ => sampleRest, [1, 0, 1]⟩
    grpc := ⟨false, true, 0, fun _ _ => sampleGrpc, []⟩
    grpcRaw := ⟨false, false, false, 0, fun _ _ => sampleGrpcRaw, []⟩
    writeErr := false }

/-! ## Time limits of the requests -/

/-- The fields of `http.Client` and its `http.Transport` set by the client. -/
structure HTTPClient where
  MaxIdleConns : Nat
  MaxIdleConnsPerHost : Nat
  IdleConnTimeout : Int
  /-- Time limit of one request, body read included; zero means no limit. -/
  Timeout : Int

/-- The variable `restClient`. -/
def restClient : HTTPClient :=
  { MaxIdleConns := 100
    MaxIdleConnsPerHost := 100
    IdleConnTimeout := 90 * time.Second
    Timeout := 10 * time.Second }

/-- A `context.Context`, as far as the deadline goes: the time left from the
start of the call, if the context has a deadline. -/
structure Context where
  deadline : Option Int

namespace context

/-- `context.Background()`: never cancelled, no deadline. -/
def Background : Context := ⟨none⟩

/-- `context.WithTimeout(parent, d)`: the earlier of the deadline of the parent
and `d`. -/
def WithTimeout (parent : Context) (d : Int) : Context :=
  match parent.deadline with
  | none => ⟨some d⟩
  | some p => ⟨some (min p d)⟩

end context

/-- The context passed to the test request of `benchmarkGrpc` and of
`benchmarkGrpcRaw`: `context.WithTimeout(context.Background(), time.Second*5)`. -/
def testRequestContext : Context := context.WithTimeout context.Background (time.Second * 5)

/-- The context passed by `makeGrpcRequest` to `client.GetPopulation`. -/
def makeGrpcRequestContext : Context := context.Background

/-- The context passed by `makeGrpcRequestRaw` to `client.GetPopulationRaw`. -/
def makeGrpcRequestRawContext : Context := context.Background

/-- The time limit that `restClient.Get` puts on a request. -/
def makeRestRequestLimit : Option Int :=
  if restClient.Timeout = 0 then none else some restClient.Timeout

/-- The time limit of a benchmark request of each variant. -/
def requestLimit : RequestEnv → Option Int
  | RequestEnv.rest _ => makeRestRequestLimit
  | RequestEnv.grpc _ => makeGrpcRequestContext.deadline
  | RequestEnv.grpcRaw _ => makeGrpcRequestRawContext.deadline

/-- The end of a transport call under a time limit: `reply` is the time after
which the server has answered (`none`: it never answers).  The value is `none`
when the call never returns, else whether it returned an error, and after how
long. -/
def await (limit : Option Int) (reply : Option Int) : Option (Bool × Int) :=
  match limit, reply with
  | none, none => none
  | none, some t => some (false, t)
  | some d, none => some (true, d)
  | some d, some t => if t < d then some (false, t) else some (true, d)

/-! ## Fixtures: formatting -/

namespace time

def Minute : Int := 60000000000

end time

/-- Pad the text on the left with zeros up to the width. -/
def zeroPad (width : Nat) (s : String) : String :=
  String.mk (List.replicate (width - s.length) '0') ++ s

/-- The verb `%d` of `fmt.Sprintf` for an `int`. -/
def fmtD (n : Int) : String :=
  if n < 0 then "-" ++ Nat.repr n.natAbs else Nat.repr n.natAbs

/-- The verb `%0wd` of `fmt.Sprintf` for an `int`: the sign counts in the width
and the zeros follow it. -/
def fmtD0 (width : Nat) (n : Int) : String :=
  if n < 0 then "-" ++ zeroPad (width - 1) (Nat.repr n.natAbs)
  else zeroPad width (Nat.repr n.natAbs)

/-- Year, month and day of the day that lies `z` days after 1970-01-01, in the
proleptic Gregorian calendar. -/
def civilFromDays (z : Int) : Int × Int × Int :=
  let z := z + 719468
  let era := z / 146097
  let doe := z - era * 146097
  let yoe := (doe - doe / 1460 + doe / 36524 - doe / 146096) / 365
  let doy := doe - (365 * yoe + yoe / 4 - yoe / 100)
  let mp := (5 * doy + 2) / 153
  let d := doy - (153 * mp + 2) / 5 + 1
  let m := if mp < 10 then mp + 3 else mp - 9
  let y := yoe + era * 400
  (if m ≤ 2 then y + 1 else y, m, d)

/-- `t.Format(time.RFC3339)` of the UTC time `unix` seconds after 1970-01-01T00:00:00Z. -/
def formatRFC3339 (unix : Int) : String :=
  let date := civilFromDays (unix / 86400)
  let s := unix % 86400
  fmtD0 4 date.1 ++ "-" ++ fmtD0 2 date.2.1 ++ "-" ++ fmtD0 2 date.2.2 ++ "T"
    ++ fmtD0 2 (s / 3600) ++ ":" ++ fmtD0 2 (s % 3600 / 60) ++ ":" ++ fmtD0 2 (s % 60) ++ "Z"

/-- `t.Add(d)` for a time `t` of whole seconds: the seconds of the result (the
nanoseconds are not printed by `time.RFC3339`). -/
def addDuration (unix : Int) (d : Int) : Int := unix + d / 1000000000

/-! ## Fixtures: data model -/

/-- A value held in the `map[string]interface{}` of the preferences. -/
inductive JSONValue where
  | string (s : String)
  | bool (b : Bool)
  deriving DecidableEq

/-- The struct `JSONAddress`. -/
structure JSONAddress where
  Street : String
  City : String
  State : String
  Country : String
  PostalCode : String
  deriving DecidableEq

/-- A Go map with string keys: the entries, the latest first. -/
def GoMap (V : Type) : Type := List (String × V)

instance (V : Type) [DecidableEq V] : DecidableEq (GoMap V) :=
  inferInstanceAs (DecidableEq (List (String × V)))

namespace GoMap

/-- The empty map (`make(map[string]V)`, or a map literal without entries). -/
def empty {V : Type} : GoMap V := ([] : List (String × V))

/-- The assignment `m[k] = v`: it replaces the entry of the key. -/
def set {V : Type} (m : GoMap V) (k : String) (v : V) : GoMap V :=
  ((k, v) :: List.filter (fun e => e.1 != k) m : List (String × V))

/-- The lookup `m[k]`. -/
def get {V : Type} (m : GoMap V) (k : String) : Option V :=
  List.lookup k (m : List (String × V))

/-- The keys of the map. -/
def keys {V : Type} (m : GoMap V) : List String :=
  List.map (fun e => e.1) (m : List (String × V))

end GoMap

/-- The struct `JSONPerson` (the struct `entity.Person` has the same fields). -/
structure JSONPerson where
  ID : String
  FirstName : String
  LastName : String
  Email : String
  DateOfBirth : String
  PhoneNumber : String
  Address : JSONAddress
  CreatedAt : String
  UpdatedAt : String
  Active : Bool
  Role : String
  ProfileImage : String
  Preferences : GoMap JSONValue
  deriving DecidableEq

/-- Modelled from the spec: the message `pb.Value` of the generated package
`proto`, which is not among the sources; a one-of, of which `generatePerson`
builds the kinds `StringValue` and `BoolValue` (the spec: "open string-keyed map
of mixed scalar/boolean values"). -/
inductive PbValue where
  | StringValue (s : String)
  | BoolValue (b : Bool)
  deriving DecidableEq

/-- Modelled from the spec: the message `pb.Address` of the generated package
`proto` (street, city, state, country, postal_code). -/
structure PbAddress where
  Street : String
  City : String
  State : String
  Country : String
  PostalCode : String
  deriving DecidableEq

/-- Modelled from the spec: the message `pb.Person` of the generated package
`proto`, with the fields of the spec's `Person` under the names that
`generatePerson` sets. -/
structure PbPerson where
  Id : String
  FirstName : String
  LastName : String
  Email : String
  DateOfBirth : String
  PhoneNumber : String
  Address : PbAddress
  CreatedAt : String
  UpdatedAt : String
  Active : Bool
  Role : String
  ProfileImage : String
  Preferences : GoMap PbValue
  deriving DecidableEq

/-- Modelled from the spec: the message `pb.GetPopulationResponse`
(`{ population: [Person] }`). -/
structure GetPopulationResponse where
  Population : List PbPerson
  deriving DecidableEq

/-- The struct `JSONResponse`, and the struct `entity.GetPopulationResponse`,
which has the same field. -/
structure JSONResponse where
  Population : List JSONPerson
  deriving DecidableEq

/-! ## Fixtures: generation -/

def firstNames : List String :=
  ["Alex", "Jordan", "Taylor", "Morgan", "Casey", "Riley", "Sam", "Drew", "Avery", "Quinn"]

def lastNames : List String :=
  ["White", "Miller", "Moore", "Jackson", "Martin", "Lee", "Perez", "Walker", "Hall", "Young"]

def cities : List String :=
  ["Seattle", "Portland", "San Francisco", "Los Angeles", "Denver", "Chicago", "Boston",
    "New York"]

def states : List String :=
  ["WA", "OR", "CA", "CO", "IL", "MA", "NY", "FL", "GA", "TX", "AZ", "NV"]

def themes : List String := ["light", "dark", "system"]

def roles : List String := ["user", "manager", "admin"]

def languages : List String := ["en", "es"]

def streets : List String := ["Oak", "Maple", "Pine", "Cedar", "Elm"]

def streetTypes : List String := ["Street", "Avenue", "Road", "Lane", "Drive"]

/-- The value `int(endDate.Sub(startDate).Hours() / 24)`: the days from
1970-01-01 to 2000-01-01. -/
def dobDays : Nat := 10957

/-- The random draws of one call of `generatePerson` with `index != 1`:
`rand.Intn(n)` is below `n`, and `rand.Float32()` is a number. -/
structure Draws where
  firstName : Fin 10
  lastName : Fin 10
  theme : Fin 3
  notifications : ℚ
  language : Fin 2
  randomDays : Fin 10957
  phoneArea : Fin 1000
  phoneLine : Fin 10000
  streetNumber : Fin 900
  street : Fin 5
  streetType : Fin 5
  city : Fin 8
  state : Fin 12
  postalCode : Fin 90000
  active : ℚ
  role : Fin 3

/-- The constant `0.3` as a `float32`. -/
def float32_0_3 : ℚ := 10066330 / 33554432

/-- The constant `0.1` as a `float32`. -/
def float32_0_1 : ℚ := 13421773 / 134217728

/-- The function `generatePerson`. -/
def generatePerson (index : Int) (r : Draws) : JSONPerson × PbPerson :=
  let personID := "p" ++ fmtD0 3 index
  if index = 1 then
    let jsonPerson : JSONPerson :=
      { ID := personID
        FirstName := "John"
        LastName := "Smith"
        Email := "john.smith@example.com"
        DateOfBirth := "1985-03-15T00:00:00Z"
        PhoneNumber := "+1-555-123-4567"
        Address :=
          { Street := "123 Main Street"
            City := "New York"
            State := "NY"
            Country := "USA"
            PostalCode := "10001" }
        CreatedAt := "2024-01-01T10:00:00Z"
        UpdatedAt := "2024-01-01T10:00:00Z"
        Active := true
        Role := "user"
        ProfileImage := "https://example.com/profiles/" ++ personID ++ ".jpg"
        Preferences :=
          (((GoMap.empty : GoMap JSONValue).set "theme" (JSONValue.string "dark")).set "notifications"
            (JSONValue.bool true)).set "language" (JSONValue.string "en") }
    let pbPerson : PbPerson :=
      { Id := personID
        FirstName := "John"
        LastName := "Smith"
        Email := "john.smith@example.com"
        DateOfBirth := "1985-03-15T00:00:00Z"
        PhoneNumber := "+1-555-123-4567"
        Address :=
          { Street := "123 Main Street"
            City := "New York"
            State := "NY"
            Country := "USA"
            PostalCode := "10001" }
        CreatedAt := "2024-01-01T10:00:00Z"
        UpdatedAt := "2024-01-01T10:00:00Z"
        Active := true
        Role := "user"
        ProfileImage := "https://example.com/profiles/" ++ personID ++ ".jpg"
        Preferences := GoMap.empty }
    let pbPerson := { pbPerson with
      Preferences := pbPerson.Preferences.set "theme" (PbValue.StringValue "dark") }
    let pbPerson := { pbPerson with
      Preferences := pbPerson.Preferences.set "notifications" (PbValue.BoolValue true) }
    let pbPerson := { pbPerson with
      Preferences := pbPerson.Preferences.set "language" (PbValue.StringValue "en") }
    (jsonPerson, pbPerson)
  else
    let firstName := firstNames.getD r.firstName ""
    let lastName := lastNames.getD r.lastName ""
    let theme := themes.getD r.theme ""
    let notifications := decide (r.notifications > float32_0_3)
    let language := languages.getD r.language ""
    let randomDays : Int := r.randomDays
    let dob := addDuration 0 (wrap64 (randomDays * 24 * time.Hour))
    let createdAt := addDuration 1704103200 (wrap64 (wrap64 (index - 1) * 5 * time.Minute))
    let jsonPerson : JSONPerson :=
      { ID := personID
        FirstName := firstName
        LastName := lastName
        Email := firstName ++ "." ++ lastName ++ "@example.com"
        DateOfBirth := formatRFC3339 dob
        PhoneNumber := "+1-555-" ++ fmtD0 3 r.phoneArea ++ "-" ++ fmtD0 4 r.phoneLine
        Address :=
          { Street := fmtD ((r.streetNumber : Int) + 100) ++ " " ++ streets.getD r.street ""
              ++ " " ++ streetTypes.getD r.streetType ""
            City := cities.getD r.city ""
            State := states.getD r.state ""
            Country := "USA"
            PostalCode := fmtD0 5 ((r.postalCode : Int) + 10000) }
        CreatedAt := formatRFC3339 createdAt
        UpdatedAt := formatRFC3339 createdAt
        Active := decide (r.active > float32_0_1)
        Role := roles.getD r.role ""
        ProfileImage := "https://example.com/profiles/" ++ personID ++ ".jpg"
        Preferences :=
          (((GoMap.empty : GoMap JSONValue).set "theme" (JSONValue.string theme)).set "notifications"
            (JSONValue.bool notifications)).set "language" (JSONValue.string language) }
    let pbPerson : PbPerson :=
      { Id := personID
        FirstName := firstName
        LastName := lastName
        Email := jsonPerson.Email
        DateOfBirth := jsonPerson.DateOfBirth
        PhoneNumber := jsonPerson.PhoneNumber
        Address :=
          { Street := jsonPerson.Address.Street
            City := jsonPerson.Address.City
            State := jsonPerson.Address.State
            Country := jsonPerson.Address.Country
            PostalCode := jsonPerson.Address.PostalCode }
        CreatedAt := jsonPerson.CreatedAt
        UpdatedAt := jsonPerson.UpdatedAt
        Active := jsonPerson.Active
        Role := jsonPerson.Role
        ProfileImage := jsonPerson.ProfileImage
        Preferences := GoMap.empty }
    let pbPerson := { pbPerson with
      Preferences := pbPerson.Preferences.set "theme" (PbValue.StringValue theme) }
    let pbPerson := { pbPerson with
      Preferences := pbPerson.Preferences.set "notifications" (PbValue.BoolValue notifications) }
    let pbPerson := { pbPerson with
      Preferences := pbPerson.Preferences.set "language" (PbValue.StringValue language) }
    (jsonPerson, pbPerson)

/-- The loop of `GenerateFixtures` that fills `jsonPopulation` and
`pbPopulation`: `for i := 1; i <= size; i++`, each turn appending the two
persons of `generatePerson(i)`; `draws i` are the random draws of turn `i`. -/
def generatePopulation (size : Int) (draws : Nat → Draws) : List JSONPerson × List PbPerson :=
  (List.range size.toNat).foldl
    (fun acc (k : Nat) =>
      let person := generatePerson ((k : Int) + 1) (draws (k + 1))
      (acc.1 ++ [person.1], acc.2 ++ [person.2]))
    ([], [])

/-- The contents of a file. -/
abbrev Bytes := List Nat

/-- The encoders and decoders of `encoding/json` and of `proto` that the server
and the fixtures use; `none` stands for a returned error. -/
structure Codec where
  /-- The call `json.MarshalIndent(jsonOutput, "", "  ")`. -/
  jsonMarshalIndent : JSONResponse → Option Bytes
  /-- The call `json.Unmarshal(jsonData, globalJSONResponse)`. -/
  jsonUnmarshal : Bytes → Option JSONResponse
  /-- The call `proto.Marshal(pbPopulation)`. -/
  protoMarshal : GetPopulationResponse → Option Bytes
  /-- The call `proto.Unmarshal(b, m)` on an empty message `m`. -/
  protoUnmarshal : Bytes → Option GetPopulationResponse

/-- The files, the latest written first. -/
abbrev FileSystem := List (String × Bytes)

/-- The faults of the file system: the paths at which `os.WriteFile` and
`os.ReadFile` return an error. -/
structure FileFaults where
  writeErr : String → Bool
  readErr : String → Bool

/-- The call `os.WriteFile(path, data, 0644)`; `none` stands for a returned error. -/
def writeFile (faults : FileFaults) (fs : FileSystem) (path : String) (data : Bytes) :
    Option FileSystem :=
  if faults.writeErr path then none else some ((path, data) :: fs)

/-- The call `os.ReadFile(path)`; `none` stands for a returned error. -/
def readFile (faults : FileFaults) (fs : FileSystem) (path : String) : Option Bytes :=
  if faults.readErr path then none else fs.lookup path

/-- The path `testutil/fixtures/fixtures_population_<size>.<ext>`. -/
def fixturePath (size : Int) (ext : String) : String :=
  "testutil/fixtures/fixtures_population_" ++ fmtD size ++ "." ++ ext

/-- One turn of the loop of `GenerateFixtures` over `sizes`.  A negative size
makes `make([]JSONPerson, 0, size)` panic. -/
def generateFixture (codec : Codec) (faults : FileFaults) (size : Int) (draws : Nat → Draws)
    (fs : FileSystem) : Except Stop FileSystem :=
  if size < 0 then .error Stop.panicked
  else
    let population := generatePopulation size draws
    let jsonOutput : JSONResponse := ⟨population.1⟩
    let pbPopulation : GetPopulationResponse := ⟨population.2⟩
    match codec.jsonMarshalIndent jsonOutput with
    | none => .error (Stop.fatal "Error marshaling JSON")
    | some jsonData =>
      match writeFile faults fs (fixturePath size "json") jsonData with
      | none => .error (Stop.fatal "Error writing JSON file")
      | some fs1 =>
        match codec.protoMarshal pbPopulation with
        | none => .error (Stop.fatal "Error marshaling protobuf")
        | some pbData =>
          match writeFile faults fs1 (fixturePath size "pb") pbData with
          | none => .error (Stop.fatal "Error writing protobuf file")
          | some fs2 => .ok fs2

/-- The function `GenerateFixtures`; `draws k` are the random draws of the turn
for the `k`-th size. -/
def GenerateFixtures (codec : Codec) (faults : FileFaults) :
    List Int → (Nat → Nat → Draws) → FileSystem → Except Stop FileSystem
  | [], _, fs => .ok fs
  | size :: sizes, draws, fs =>
    match generateFixture codec faults size (draws 0) fs with
    | .error e => .error e
    | .ok fs1 => GenerateFixtures codec faults sizes (fun k => draws (k + 1)) fs1

/-! ## Server -/

/-- The global response cache of the server: `globalJSONResponse` and
`globalPBResponse` (`none`: a nil pointer) and `globalRawData`. -/
structure ServerState where
  globalJSONResponse : Option JSONResponse
  globalPBResponse : Option GetPopulationResponse
  globalRawData : Bytes

/-- The globals before `initialize`. -/
def ServerState.initial : ServerState := ⟨none, none, []⟩

/-- How a call of the function `initialize` ends. -/
inductive InitOutcome where
  /-- The process was stopped inside `GenerateFixtures`. -/
  | stopped (s : Stop)
  /-- The function returned an error. -/
  | failed (st : ServerState)
  /-- The function returned `nil`. -/
  | done (st : ServerState)

/-- The function `initialize` of the server (the name is a keyword of Lean). -/
def initServer (codec : Codec) (faults : FileFaults) (size : Int) (draws : Nat → Nat → Draws)
    (st : ServerState) (fs : FileSystem) : InitOutcome :=
  match GenerateFixtures codec faults [size] draws fs with
  | .error e => InitOutcome.stopped e
  | .ok fs1 =>
    match readFile faults fs1 (fixturePath size "json") with
    | none => InitOutcome.failed st
    | some jsonData =>
      match codec.jsonUnmarshal jsonData with
      | none => InitOutcome.failed { st with globalJSONResponse := some ⟨[]⟩ }
      | some jsonResponse =>
        let st1 := { st with globalJSONResponse := some jsonResponse }
        match readFile faults fs1 (fixturePath size "pb") with
        | none => InitOutcome.failed st1
        | some pbData =>
          let st2 := { st1 with globalRawData := pbData }
          match codec.protoUnmarshal pbData with
          | none => InitOutcome.failed { st2 with globalPBResponse := some ⟨[]⟩ }
          | some pbResponse => InitOutcome.done { st2 with globalPBResponse := some pbResponse }

/-- Modelled from the spec: the message `pb.GetPopulationRequest` (`empty`). -/
structure GetPopulationRequest where
  deriving DecidableEq

/-- Modelled from the spec: the message `pb.RawResponse` (`{ data: bytes }`). -/
structure RawResponse where
  Data : Bytes
  deriving DecidableEq

/-- The method `grpcServer.GetPopulation`: the cached message. -/
def GetPopulation (st : ServerState) (_req : GetPopulationRequest) :
    Option GetPopulationResponse :=
  st.globalPBResponse

/-- The method `grpcServer.GetPopulationRaw`: the cached bytes in a wrapper. -/
def GetPopulationRaw (st : ServerState) (_req : GetPopulationRequest) : RawResponse :=
  ⟨st.globalRawData⟩

/-! ## Agreement of the two datasets -/

/-- The JSON value that a `pb.Value` stands for. -/
def PbValue.toJSON : PbValue → JSONValue
  | PbValue.StringValue s => JSONValue.string s
  | PbValue.BoolValue b => JSONValue.bool b

/-- The two addresses agree on every field. -/
def AddressesAgree (j : JSONAddress) (p : PbAddress) : Prop :=
  j.Street = p.Street ∧ j.City = p.City ∧ j.State = p.State ∧ j.Country = p.Country ∧
    j.PostalCode = p.PostalCode

/-- The JSON person and the protobuf person agree on every field; the
preferences hold the same value under every key. -/
def PersonsAgree (j : JSONPerson) (p : PbPerson) : Prop :=
  j.ID = p.Id ∧ j.FirstName = p.FirstName ∧ j.LastName = p.LastName ∧ j.Email = p.Email ∧
  j.DateOfBirth = p.DateOfBirth ∧ j.PhoneNumber = p.PhoneNumber ∧
  AddressesAgree j.Address p.Address ∧
  j.CreatedAt = p.CreatedAt ∧ j.UpdatedAt = p.UpdatedAt ∧ j.Active = p.Active ∧
  j.Role = p.Role ∧ j.ProfileImage = p.ProfileImage ∧
  (∀ key, j.Preferences.get key = (p.Preferences.get key).map PbValue.toJSON)

/-- The decimal numeral of `i`, with zeros on the left up to three digits. -/
def threeDigits (i : Nat) : String :=
  String.mk (List.replicate (3 - (Nat.repr i).length) '0') ++ Nat.repr i

/-- A codec for examples: a population is written as its number of persons, and
read back as no person at all. -/
def sampleCodec : Codec :=
  { jsonMarshalIndent := fun r => some [r.Population.length]
    jsonUnmarshal := fun _ => some ⟨[]⟩
    protoMarshal := fun r => some [r.Population.length]
    protoUnmarshal := fun _ => some ⟨[]⟩ }

/-- A file system without faults. -/
def noFaults : FileFaults := ⟨fun _ => false, fun _ => false⟩

/-- Draws for examples. -/
def sampleDraws : Draws := ⟨3, 4, 1, 1 / 2, 0, 10956, 7, 42, 899, 2, 4, 7, 11, 89999, 1 / 20, 2⟩

/-! ## Machine integers: lemmas -/

theorem wrap64_of_isInt64 {x : Int} (h : isInt64 x) : wrap64 x = x := by
  unfold isInt64 at h; unfold wrap64; omega

theorem wrap64_isInt64 (x : Int) : isInt64 (wrap64 x) := by
  unfold isInt64 wrap64; omega

theorem wrap64_add_left (x y : Int) : wrap64 (wrap64 x + y) = wrap64 (x + y) := by
  unfold wrap64; omega

theorem wrap64_add_right (x y : Int) : wrap64 (x + wrap64 y) = wrap64 (x + y) := by
  unfold wrap64; omega

theorem isInt64_tdiv {x n : Int} (hx : isInt64 x) (hn : 1 ≤ n) : isInt64 (Int.tdiv x n) := by
  unfold isInt64 at *
  rcases le_or_lt 0 x with h | h
  · have h1 : Int.tdiv x n = x / n := Int.tdiv_eq_ediv h (by omega)
    have h2 : x / n ≤ x := Int.ediv_le_self n h
    have h3 : 0 ≤ x / n := Int.ediv_nonneg h (by omega)
    omega
  · have h1 : Int.tdiv (-x) n = (-x) / n := Int.tdiv_eq_ediv (by omega) (by omega)
    have h2 : (-x) / n ≤ -x := Int.ediv_le_self n (by omega)
    have h3 : 0 ≤ (-x) / n := Int.ediv_nonneg (by omega) (by omega)
    have h4 : Int.tdiv (-x) n = -(Int.tdiv x n) := Int.neg_tdiv x n
    omega

/-! ## Metrics recorder: lemmas -/

theorem recordMetrics_eq_some {a b : ClientAnalytics} {l n : Int} {s : Bool} {t : Int}
    (h : recordMetrics a l n s t = some b) :
    wrap64 (a.TotalRequests + 1) ≠ 0 ∧
    b.Protocol = a.Protocol ∧ b.StartTime = a.StartTime ∧ b.MockSize = a.MockSize ∧
    b.EndTime = t ∧
    b.TotalRequests = wrap64 (a.TotalRequests + 1) ∧
    b.SuccessRequests = (if s then wrap64 (a.SuccessRequests + 1) else a.SuccessRequests) ∧
    b.FailedRequests = (if s then a.FailedRequests else wrap64 (a.FailedRequests + 1)) ∧
    b.TotalLatency = wrap64 (a.TotalLatency + l) ∧
    b.TotalBytes = wrap64 (a.TotalBytes + wrap64 n) ∧
    b.MinLatency = (if l < a.MinLatency ∨ a.MinLatency = 0 then l else a.MinLatency) ∧
    b.MaxLatency = (if l > a.MaxLatency then l else a.MaxLatency) ∧
    Derived b := by
  unfold recordMetrics at h
  simp only at h
  split at h
  · exact absurd h (by simp)
  · rename_i h0
    cases h
    exact ⟨h0, rfl, rfl, rfl, rfl, rfl, rfl, rfl, rfl, rfl, rfl, rfl, rfl, rfl, rfl, rfl, rfl⟩

theorem recordMetrics_isSome (a : ClientAnalytics) (l n : Int) (s : Bool) (t : Int)
    (h : wrap64 (a.TotalRequests + 1) ≠ 0) : ∃ b, recordMetrics a l n s t = some b := by
  unfold recordMetrics
  simp only [h, if_false]
  exact ⟨_, rfl⟩

theorem recordMetrics_countersAgree {a b : ClientAnalytics} {l n : Int} {s : Bool} {t : Int}
    (h : recordMetrics a l n s t = some b) (ha : CountersAgree a) : CountersAgree b := by
  obtain ⟨-, -, -, -, -, hT, hS, hF, -⟩ := recordMetrics_eq_some h
  unfold CountersAgree at *
  rw [hT, hS, hF, ha]
  cases s
  · simp only [Bool.false_eq_true, if_false]; unfold wrap64; omega
  · simp only [if_true]; unfold wrap64; omega

theorem trace_countersAgree (cs : List Call) : ∀ a, CountersAgree a →
    ∀ s ∈ trace a cs, CountersAgree s := by
  induction cs with
  | nil => intro a _ s hs; simp [trace] at hs
  | cons c cs ih =>
    intro a ha s hs
    unfold trace at hs
    cases hc : applyCall a c with
    | none => simp [hc] at hs
    | some b =>
      simp only [hc, List.mem_cons] at hs
      have hb : CountersAgree b := recordMetrics_countersAgree hc ha
      rcases hs with rfl | hs
      · exact hb
      · exact ih b hb s hs

theorem trace_countersExact (cs : List Call) : ∀ a, CountersExact a →
    a.TotalRequests + cs.length < 9223372036854775808 →
    (trace a cs).length = cs.length ∧ ∀ s ∈ trace a cs, CountersExact s := by
  induction cs with
  | nil => intro a _ _; simp [trace]
  | cons c cs ih =>
    intro a ha hlen
    simp only [List.length_cons, Nat.cast_add, Nat.cast_one] at hlen
    obtain ⟨hs0, hf0, htot⟩ := ha
    have hne : wrap64 (a.TotalRequests + 1) ≠ 0 := by unfold wrap64; omega
    obtain ⟨b, hb⟩ := recordMetrics_isSome a c.latency c.bodySize c.success c.now hne
    obtain ⟨-, -, -, -, -, hT, hS, hF, -⟩ := recordMetrics_eq_some hb
    have hbe : CountersExact b := by
      unfold CountersExact
      rw [hT, hS, hF]
      cases c.success
      · simp only [Bool.false_eq_true, if_false]; unfold wrap64; omega
      · simp only [if_true]; unfold wrap64; omega
    have hbT : b.TotalRequests = a.TotalRequests + 1 := by rw [hT]; unfold wrap64; omega
    obtain ⟨ihl, ihs⟩ := ih b hbe (by omega)
    have htr : trace a (c :: cs) = b :: trace b cs := by
      simp only [trace, applyCall, hb]
    rw [htr]
    refine ⟨by simp [ihl], ?_⟩
    intro s hs
    rcases List.mem_cons.mp hs with rfl | hs
    · exact hbe
    · exact ihs s hs

theorem applyCalls_spec (cs : List Call) : ∀ a : ClientAnalytics, InRange a → 0 ≤ a.TotalRequests →
    a.TotalRequests + cs.length < 9223372036854775808 →
    ∃ b, applyCalls a cs = some b ∧
      b.TotalRequests = a.TotalRequests + cs.length ∧
      b.SuccessRequests = wrap64 (a.SuccessRequests + countSuccess cs) ∧
      b.FailedRequests = wrap64 (a.FailedRequests + countFailed cs) ∧
      b.TotalLatency = wrap64 (a.TotalLatency + sumLatency cs) ∧
      b.TotalBytes = wrap64 (a.TotalBytes + sumBytes cs) ∧
      b.Protocol = a.Protocol ∧ b.StartTime = a.StartTime ∧ b.MockSize = a.MockSize ∧
      (cs ≠ [] → Derived b) := by
  induction cs with
  | nil =>
    intro a ⟨r1, r2, r3, r4⟩ h0 _
    refine ⟨a, rfl, by simp, ?_, ?_, ?_, ?_, rfl, rfl, rfl, by simp⟩
    · simp [countSuccess, wrap64_of_isInt64 r1]
    · simp [countFailed, wrap64_of_isInt64 r2]
    · simp [sumLatency, wrap64_of_isInt64 r3]
    · simp [sumBytes, wrap64_of_isInt64 r4]
  | cons c cs ih =>
    intro a hr h0 hlen
    simp only [List.length_cons, Nat.cast_add, Nat.cast_one] at hlen
    have hne : wrap64 (a.TotalRequests + 1) ≠ 0 := by unfold wrap64; omega
    obtain ⟨a1, h1⟩ := recordMetrics_isSome a c.latency c.bodySize c.success c.now hne
    obtain ⟨-, hP, hS, hM, -, hT, hSu, hF, hL, hB, -, -, hD⟩ := recordMetrics_eq_some h1
    have hT1 : a1.TotalRequests = a.TotalRequests + 1 := by rw [hT]; unfold wrap64; omega
    have hr1 : InRange a1 := by
      refine ⟨?_, ?_, ?_, ?_⟩
      · rw [hSu]; split
        · exact wrap64_isInt64 _
        · exact hr.1
      · rw [hF]; split
        · exact hr.2.1
        · exact wrap64_isInt64 _
      · rw [hL]; exact wrap64_isInt64 _
      · rw [hB]; exact wrap64_isInt64 _
    obtain ⟨b, hb, bT, bS, bF, bL, bB, bP, bSt, bM, bD⟩ := ih a1 hr1 (by omega) (by omega)
    refine ⟨b, ?_, ?_, ?_, ?_, ?_, ?_, ?_, ?_, ?_, ?_⟩
    · simp only [applyCalls, applyCall, h1]; exact hb
    · rw [bT, hT1]; simp only [List.length_cons, Nat.cast_add, Nat.cast_one]; omega
    · rw [bS, hSu]
      cases hs : c.success
      · simp [countSuccess, hs, List.filter_cons]
      · simp only [countSuccess, hs, List.filter_cons, if_true, List.length_cons, Nat.cast_add,
          Nat.cast_one]
        rw [wrap64_add_left]; congr 1; ring
    · rw [bF, hF]
      cases hs : c.success
      · simp only [countFailed, hs, List.filter_cons, Bool.not_false, if_true, List.length_cons,
          Nat.cast_add, Nat.cast_one, Bool.false_eq_true, if_false]
        rw [wrap64_add_left]; congr 1; ring
      · simp [countFailed, hs, List.filter_cons]
    · rw [bL, hL, wrap64_add_left]
      simp only [sumLatency, List.map_cons, List.sum_cons]; congr 1; ring
    · rw [bB, hB, wrap64_add_right, wrap64_add_left]
      simp only [sumBytes, List.map_cons, List.sum_cons]; congr 1; ring
    · rw [bP, hP]
    · rw [bSt, hS]
    · rw [bM, hM]
    · intro _
      by_cases hcs : cs = []
      · subst hcs
        simp only [applyCalls, Option.some.injEq] at hb
        subst hb
        exact hD
      · exact bD hcs

theorem newAnalytics_inRange (p : String) (start : Int) (size : Int) :
    InRange (newAnalytics p start size) := by
  unfold InRange isInt64 newAnalytics
  simp

/-! ## float64: lemmas -/

namespace F64

theorem roundHalfEven_intCast (z : Int) : roundHalfEven (z : ℚ) = z := by
  simp [roundHalfEven]

theorem floor_le_roundHalfEven (t : ℚ) : ⌊t⌋ ≤ roundHalfEven t := by
  unfold roundHalfEven
  simp only
  split_ifs <;> omega

theorem quantum_pos (m : ℚ) : 0 < quantum m := by
  unfold quantum
  positivity

/-- A natural number below `2^53` is a binary64 number. -/
theorem round_natCast (s : Bool) (n : Nat) (h : n < 9007199254740992) :
    round s (n : ℚ) = num s n := by
  by_cases h0 : n = 0
  · simp [round, h0]
  unfold round
  rw [if_neg (by exact_mod_cast h0)]
  have he : Int.log 2 (n : ℚ) = Nat.log 2 n := Int.log_natCast 2 n
  have hle : Nat.log 2 n < 53 := Nat.log_lt_of_lt_pow h0 (by norm_num; exact h)
  obtain ⟨k, hk⟩ : ∃ k : Nat, (Nat.log 2 n : Int) - 52 = -(k : Int) :=
    ⟨52 - Nat.log 2 n, by omega⟩
  have hq : quantum (n : ℚ) = ((2 : ℚ) ^ k)⁻¹ := by
    unfold quantum
    rw [he, max_eq_left (by omega), hk, zpow_neg, zpow_natCast]
  have h2 : ((2 : ℚ) ^ k) ≠ 0 := by positivity
  have hdiv : (n : ℚ) / ((2 : ℚ) ^ k)⁻¹ = (((n * 2 ^ k : Nat) : Int) : ℚ) := by
    push_cast; field_simp
  have hmul : ((((n * 2 ^ k : Nat) : Int)) : ℚ) * ((2 : ℚ) ^ k)⁻¹ = n := by
    push_cast; field_simp
  simp only [hq, hdiv, roundHalfEven_intCast, hmul]
  rw [if_neg]
  push_neg
  calc (n : ℚ) < 9007199254740992 := by exact_mod_cast h
    _ ≤ 2 ^ 1024 := by norm_num

/-- A magnitude of at least one is rounded to a non-zero number or to an infinity. -/
theorem round_of_one_le (s : Bool) (m : ℚ) (hm : 1 ≤ m) :
    round s m = inf s ∨ ∃ r, r ≠ 0 ∧ round s m = num s r := by
  have hm0 : 0 < m := lt_of_lt_of_le one_pos hm
  unfold round
  rw [if_neg (ne_of_gt hm0)]
  simp only
  split_ifs with hbig
  · exact Or.inl rfl
  · refine Or.inr ⟨_, ?_, rfl⟩
    have hq := quantum_pos m
    have hlog : 0 ≤ Int.log 2 m := by
      rw [Int.log_of_one_le_right 2 hm]; exact Int.natCast_nonneg _
    have hqm : quantum m ≤ m := by
      unfold quantum
      rw [max_eq_left (by omega)]
      calc (2 : ℚ) ^ (Int.log 2 m - 52) ≤ (2 : ℚ) ^ (Int.log 2 m) :=
            zpow_le_zpow_right₀ (by norm_num) (by omega)
        _ ≤ m := by exact_mod_cast Int.zpow_log_le_self (b := 2) (by norm_num) hm0
    have h1 : (1 : ℚ) ≤ m / quantum m := by rw [le_div_iff₀ hq]; simpa using hqm
    have h2 : (1 : Int) ≤ ⌊m / quantum m⌋ := Int.le_floor.mpr (by exact_mod_cast h1)
    have h3 := floor_le_roundHalfEven (m / quantum m)
    have h4 : (0 : ℚ) < (roundHalfEven (m / quantum m) : ℚ) := by
      have : (0 : Int) < roundHalfEven (m / quantum m) := by omega
      exact_mod_cast this
    exact ne_of_gt (mul_pos h4 hq)

theorem ofInt_zero : ofInt 0 = num false 0 := by
  simp [ofInt, round]

theorem ofInt_natCast (n : Nat) (h : n < 9007199254740992) : ofInt (n : Int) = num false n := by
  unfold ofInt
  have : decide ((n : Int) < 0) = false := by simp
  rw [this, Int.natAbs_ofNat]
  exact round_natCast false n h

/-- Division of a positive integer by `+0` is `+Inf`. -/
theorem div_ofInt_pos_zero (n : Int) (hn : 0 < n) : div (ofInt n) (num false 0) = inf false := by
  unfold ofInt
  have hs : decide (n < 0) = false := by simp; omega
  have hm : (1 : ℚ) ≤ (n.natAbs : ℚ) := by
    have : 1 ≤ n.natAbs := by omega
    exact_mod_cast this
  rw [hs]
  rcases round_of_one_le false _ hm with h | ⟨r, hr, h⟩
  · rw [h]; rfl
  · rw [h]; simp [div, hr]

/-- Division of a negative integer by `+0` is `-Inf`. -/
theorem div_ofInt_neg_zero (n : Int) (hn : n < 0) : div (ofInt n) (num false 0) = inf true := by
  unfold ofInt
  have hs : decide (n < 0) = true := by simp; omega
  have hm : (1 : ℚ) ≤ (n.natAbs : ℚ) := by
    have : 1 ≤ n.natAbs := by omega
    exact_mod_cast this
  rw [hs]
  rcases round_of_one_le true _ hm with h | ⟨r, hr, h⟩
  · rw [h]; rfl
  · rw [h]; simp [div, hr]

/-- The quotient `0 / 0` is NaN. -/
theorem div_ofInt_zero_zero : div (ofInt 0) (num false 0) = nan := by
  rw [ofInt_zero]; simp [div]

/-- An exact quotient below `2^53` is not rounded. -/
theorem div_natCast_exact (a b c : Nat) (hb : 0 < b) (hab : a = c * b)
    (ha : a < 9007199254740992) (hbb : b < 9007199254740992) (hc : c < 9007199254740992) :
    div (ofInt (a : Int)) (ofInt (b : Int)) = num false c := by
  rw [ofInt_natCast a ha, ofInt_natCast b hbb]
  have hb0 : (b : ℚ) ≠ 0 := by exact_mod_cast (Nat.pos_iff_ne_zero.mp hb)
  have hq : (a : ℚ) / (b : ℚ) = (c : ℚ) := by
    rw [hab]; push_cast; field_simp
  simp only [div, hb0, if_false, hq, Bool.xor_false]
  exact round_natCast false c hc

end F64

namespace time

theorem subMono_self (t : Int) : subMono t t = 0 := by
  unfold subMono wrap64
  simp

theorem subMono_of_le {t u : Int} (ht : isInt64 t) (hu : isInt64 u) (h : u ≤ t) :
    0 ≤ subMono t u ∧ (subMono t u = t - u ∨ subMono t u = maxDuration) := by
  unfold isInt64 at ht hu
  unfold subMono maxDuration minDuration wrap64
  simp only
  split_ifs <;> omega

theorem Seconds_zero : Seconds 0 = F64.num false 0 := by
  unfold Seconds Second
  have h1 : Int.tdiv 0 1000000000 = 0 := by decide
  have h2 : Int.tmod 0 1000000000 = 0 := by decide
  rw [h1, h2, F64.ofInt_zero]
  simp [F64.div, F64.add, F64.round, F64.signed]

end time

/-! ## Metrics recorder: behaviour at zero elapsed time -/

theorem recordMetrics_zero_elapsed (a : ClientAnalytics) (l n : Int) (s : Bool) (now : Int)
    (h0 : 0 ≤ a.TotalRequests) (h1 : a.TotalRequests + 1 < 9223372036854775808)
    (hel : time.Sub now a.StartTime = 0) :
    ∃ b, recordMetrics a l n s now = some b ∧ b.TotalDuration = 0 ∧
      b.RequestsPerSec = F64.inf false ∧
      (0 < b.TotalBytes → b.BytesPerSec = F64.inf false) ∧
      (b.TotalBytes = 0 → b.BytesPerSec = F64.nan) ∧
      (b.TotalBytes < 0 → b.BytesPerSec = F64.inf true) := by
  have hne : wrap64 (a.TotalRequests + 1) ≠ 0 := by unfold wrap64; omega
  obtain ⟨b, hb⟩ := recordMetrics_isSome a l n s now hne
  obtain ⟨-, -, hS, -, hE, hT, -, -, -, -, -, -, -, -, hD, hR, hB⟩ := recordMetrics_eq_some hb
  have hT1 : 0 < b.TotalRequests := by rw [hT]; unfold wrap64; omega
  have hd : b.TotalDuration = 0 := by rw [hD, hE, hS]; exact hel
  refine ⟨b, hb, hd, ?_, ?_, ?_, ?_⟩
  · rw [hR, hd, time.Seconds_zero]; exact F64.div_ofInt_pos_zero _ hT1
  · intro hp; rw [hB, hd, time.Seconds_zero]; exact F64.div_ofInt_pos_zero _ hp
  · intro hz; rw [hB, hd, time.Seconds_zero, hz]; exact F64.div_ofInt_zero_zero
  · intro hn; rw [hB, hd, time.Seconds_zero]; exact F64.div_ofInt_neg_zero _ hn

/-! ## Load orchestration: lemmas -/

theorem takeFrom_perm {α : Type} (ws : List (List α)) : ∀ (i : Nat) (x : α) (rest : List (List α)),
    takeFrom i ws = some (x, rest) → ws.flatten.Perm (x :: rest.flatten) := by
  induction ws with
  | nil => intro i x rest h; simp [takeFrom] at h
  | cons w ws ih =>
    intro i x rest h
    cases i with
    | zero =>
      cases w with
      | nil => simp [takeFrom] at h
      | cons y ys =>
        simp only [takeFrom, Option.some.injEq, Prod.mk.injEq] at h
        obtain ⟨rfl, rfl⟩ := h
        simp
    | succ i =>
      simp only [takeFrom, Option.map_eq_some'] at h
      obtain ⟨p, hp, hq⟩ := h
      simp only [Prod.mk.injEq] at hq
      obtain ⟨rfl, rfl⟩ := hq
      have h1 := ih i p.1 p.2 hp
      simp only [List.flatten_cons]
      exact (List.Perm.append_left w h1).trans List.perm_middle

/-- Whatever the scheduler picks, the serialised calls are the calls of the
workers, each exactly once. -/
theorem schedule_perm {α : Type} (ps : List Nat) : ∀ ws : List (List α),
    (schedule ps ws).Perm ws.flatten := by
  induction ps with
  | nil => intro ws; exact List.Perm.refl _
  | cons p ps ih =>
    intro ws
    unfold schedule
    cases h : takeFrom p ws with
    | none => exact ih ws
    | some q =>
      obtain ⟨x, rest⟩ := q
      exact ((ih rest).cons x).trans (takeFrom_perm ws p x rest h).symm

theorem length_flatMap_const {α β : Type} (f : α → List β) (k : Nat) (l : List α)
    (h : ∀ x ∈ l, (f x).length = k) : (l.flatMap f).length = l.length * k := by
  induction l with
  | nil => simp
  | cons x xs ih =>
    simp only [List.flatMap_cons, List.length_append, List.length_cons]
    rw [h x (List.mem_cons_self _ _), ih (fun y hy => h y (List.mem_cons_of_mem _ hy))]
    ring

theorem serialised_perm (N M : Nat) (request : Nat → Nat → List Call) (picks : List Nat) :
    (serialised N M request picks).Perm
      ((List.range N).flatMap (fun i => (List.range M).flatMap (request i))) := by
  unfold serialised
  refine (schedule_perm picks _).trans ?_
  have : ((List.range N).map (workerCalls request M)).flatten
      = (List.range N).flatMap (fun i => (List.range M).flatMap (request i)) := by
    unfold List.flatMap
    congr 1
  rw [this]

theorem serialised_length (N M : Nat) (request : Nat → Nat → List Call) (picks : List Nat)
    (h1 : ∀ i j, (request i j).length = 1) : (serialised N M request picks).length = N * M := by
  rw [(serialised_perm N M request picks).length_eq]
  rw [length_flatMap_const _ M]
  · simp
  · intro i _
    rw [length_flatMap_const _ 1]
    · simp
    · intro j _; exact h1 i j

theorem mem_serialised {N M : Nat} {request : Nat → Nat → List Call} {picks : List Nat}
    {c : Call} (h : c ∈ serialised N M request picks) :
    ∃ i, i < N ∧ ∃ j, j < M ∧ c ∈ request i j := by
  have h1 := (serialised_perm N M request picks).mem_iff.mp h
  simp only [List.mem_flatMap, List.mem_range] at h1
  obtain ⟨i, hi, j, hj, hc⟩ := h1
  exact ⟨i, hi, j, hj, hc⟩

theorem countSuccess_of_all {cs : List Call} (h : ∀ c ∈ cs, c.success = true) :
    countSuccess cs = cs.length ∧ countFailed cs = 0 := by
  unfold countSuccess countFailed
  constructor
  · rw [List.filter_eq_self.mpr (fun c hc => h c hc)]
  · rw [List.length_eq_zero, List.filter_eq_nil_iff]
    intro c hc; simp [h c hc]

theorem sumLatency_const {cs : List Call} {l : Int} (h : ∀ c ∈ cs, c.latency = l) :
    sumLatency cs = cs.length * l := by
  unfold sumLatency
  induction cs with
  | nil => simp
  | cons c cs ih =>
    simp only [List.map_cons, List.sum_cons, List.length_cons, Nat.cast_add, Nat.cast_one]
    rw [h c (List.mem_cons_self _ _), ih (fun d hd => h d (List.mem_cons_of_mem _ hd))]
    ring

theorem sumBytes_const {cs : List Call} {n : Int} (h : ∀ c ∈ cs, c.bodySize = n) :
    sumBytes cs = cs.length * n := by
  unfold sumBytes
  induction cs with
  | nil => simp
  | cons c cs ih =>
    simp only [List.map_cons, List.sum_cons, List.length_cons, Nat.cast_add, Nat.cast_one]
    rw [h c (List.mem_cons_self _ _), ih (fun d hd => h d (List.mem_cons_of_mem _ hd))]
    ring

/-- Once `MinLatency` and `MaxLatency` are both `l`, calls of latency `l` keep them. -/
theorem applyCalls_minmax_stable {l : Int} (cs : List Call) : ∀ a b : ClientAnalytics,
    applyCalls a cs = some b → (∀ c ∈ cs, c.latency = l) →
    a.MinLatency = l → a.MaxLatency = l → b.MinLatency = l ∧ b.MaxLatency = l := by
  induction cs with
  | nil =>
    intro a b h _ h1 h2
    simp only [applyCalls, Option.some.injEq] at h
    subst h; exact ⟨h1, h2⟩
  | cons c cs ih =>
    intro a b h hl h1 h2
    unfold applyCalls at h
    cases hc : applyCall a c with
    | none => simp [hc] at h
    | some a1 =>
      simp only [hc] at h
      obtain ⟨-, -, -, -, -, -, -, -, -, -, hmin, hmax, -⟩ := recordMetrics_eq_some hc
      have hcl := hl c (List.mem_cons_self _ _)
      refine ih a1 b h (fun d hd => hl d (List.mem_cons_of_mem _ hd)) ?_ ?_
      · rw [hmin, hcl, h1]; split <;> rfl
      · rw [hmax, hcl, h2]; split <;> rfl

/-- A non-empty run of calls of one latency `l` with `0 < l < time.Hour` on a fresh
analytics ends with `MinLatency = MaxLatency = l`. -/
theorem applyCalls_minmax_const {l : Int} (cs : List Call) (hne : cs ≠ [])
    (a b : ClientAnalytics) (h : applyCalls a cs = some b) (hl : ∀ c ∈ cs, c.latency = l)
    (hmin : a.MinLatency = time.Hour) (hmax : a.MaxLatency = 0) (h0 : 0 < l)
    (h1 : l < time.Hour) : b.MinLatency = l ∧ b.MaxLatency = l := by
  cases cs with
  | nil => exact absurd rfl hne
  | cons c cs =>
    unfold applyCalls at h
    cases hc : applyCall a c with
    | none => simp [hc] at h
    | some a1 =>
      simp only [hc] at h
      obtain ⟨-, -, -, -, -, -, -, -, -, -, hmn, hmx, -⟩ := recordMetrics_eq_some hc
      have hcl := hl c (List.mem_cons_self _ _)
      refine applyCalls_minmax_stable cs a1 b h (fun d hd => hl d (List.mem_cons_of_mem _ hd)) ?_ ?_
      · rw [hmn, hcl, hmin, if_pos (Or.inl h1)]
      · rw [hmx, hcl, hmax, if_pos h0]

/-- The analytics after the last call carries that call's clock reading. -/
theorem applyCalls_endTime {t : Int} (cs : List Call) : ∀ a b : ClientAnalytics,
    applyCalls a cs = some b → (∀ c ∈ cs, c.now = t) → cs ≠ [] → b.EndTime = t := by
  induction cs with
  | nil => intro a b _ _ h; exact absurd rfl h
  | cons c cs ih =>
    intro a b h hl _
    unfold applyCalls at h
    cases hc : applyCall a c with
    | none => simp [hc] at h
    | some a1 =>
      simp only [hc] at h
      by_cases hcs : cs = []
      · subst hcs
        simp only [applyCalls, Option.some.injEq] at h
        subst h
        rw [(recordMetrics_eq_some hc).2.2.2.2.1]
        exact hl c (List.mem_cons_self _ _)
      · exact ih a1 b h (fun d hd => hl d (List.mem_cons_of_mem _ hd)) hcs

/-- A run of the worker pool in which every request makes one call and fewer
than `2^63` calls are made in all completes. -/
theorem runWorkers_ok (a : ClientAnalytics) (N M : Nat) (request : Nat → Nat → List Call)
    (picks : List Nat) (h1 : ∀ i j, (request i j).length = 1)
    (hr : InRange a) (h0 : a.TotalRequests = 0)
    (hb : ((N * M : Nat) : Int) < 9223372036854775808) :
    ∃ b, applyCalls a (serialised N M request picks) = some b ∧
      runWorkers a N M request picks =
        ⟨Event.created a.Protocol :: (List.range N).map (Event.spawned a.Protocol)
          ++ (serialised N M request picks).map (Event.recorded a.Protocol) ++ [Event.printed b],
          .ok b⟩ ∧
      b.TotalRequests = N * M ∧ b.Protocol = a.Protocol := by
  have hlen := serialised_length N M request picks h1
  obtain ⟨b, hb1, bT, -, -, -, -, bP, -⟩ := applyCalls_spec (serialised N M request picks) a hr
    (by omega) (by rw [hlen, h0]; simpa using hb)
  refine ⟨b, hb1, ?_, ?_, bP⟩
  · unfold runWorkers
    simp only [hb1]
  · rw [bT, hlen, h0]; simp

theorem perform_eq_singleton (env : RequestEnv) :
    ∃ c, env.perform = [c] ∧ c.success = env.succeeded := by
  cases env with
  | rest e =>
    simp only [RequestEnv.perform, RequestEnv.succeeded, makeRestRequest]
    cases e.getErr <;> cases e.readErr <;> cases e.unmarshalErr <;> simp
  | grpc e =>
    simp only [RequestEnv.perform, RequestEnv.succeeded, makeGrpcRequest]
    cases e.callErr <;> simp
  | grpcRaw e =>
    simp only [RequestEnv.perform, RequestEnv.succeeded, makeGrpcRequestRaw]
    cases e.callErr <;> cases e.unmarshalErr <;> simp

theorem perform_length (env : RequestEnv) : env.perform.length = 1 := by
  obtain ⟨c, hc, -⟩ := perform_eq_singleton env
  rw [hc]; rfl

/-- The final analytics of a run in which every request makes one call. -/
theorem runWorkers_result (a : ClientAnalytics) (N M : Nat) (request : Nat → Nat → List Call)
    (picks : List Nat) (h1 : ∀ i j, (request i j).length = 1)
    (hr : InRange a) (h0 : a.TotalRequests = 0)
    (hb : ((N * M : Nat) : Int) < 9223372036854775808) :
    ∃ b, applyCalls a (serialised N M request picks) = some b ∧
      (runWorkers a N M request picks).result = Except.ok b := by
  obtain ⟨b, hb1, hb2, -⟩ := runWorkers_ok a N M request picks h1 hr h0 hb
  exact ⟨b, hb1, by rw [hb2]⟩

/-! ## Run controller: lemmas -/

theorem applyCalls_protocol (cs : List Call) : ∀ a b : ClientAnalytics,
    applyCalls a cs = some b → b.Protocol = a.Protocol := by
  induction cs with
  | nil => intro a b h; simp only [applyCalls, Option.some.injEq] at h; rw [h]
  | cons c cs ih =>
    intro a b h
    unfold applyCalls at h
    cases hc : applyCall a c with
    | none => simp [hc] at h
    | some a1 =>
      simp only [hc] at h
      rw [ih a1 b h, (recordMetrics_eq_some hc).2.1]

/-- The worker pool writes no file and acts only for the protocol of its analytics. -/
theorem runWorkers_events (a : ClientAnalytics) (N M : Nat) (request : Nat → Nat → List Call)
    (picks : List Nat) :
    ∀ e ∈ (runWorkers a N M request picks).events,
      e.isFileWritten = false ∧ ∀ q, q ≠ a.Protocol → e.ofProtocol q = false := by
  intro e he
  unfold runWorkers at he
  cases hc : applyCalls a (serialised N M request picks) with
  | none =>
    simp only [hc, List.cons_append, List.mem_cons, List.mem_append, List.mem_map] at he
    rcases he with rfl | ⟨i, -, rfl⟩ | ⟨c, -, rfl⟩
    · exact ⟨rfl, fun q hq => by simp [Event.ofProtocol, Ne.symm hq]⟩
    · exact ⟨rfl, fun q hq => by simp [Event.ofProtocol, Ne.symm hq]⟩
    · exact ⟨rfl, fun q hq => by simp [Event.ofProtocol, Ne.symm hq]⟩
  | some b =>
    have hp := applyCalls_protocol _ _ _ hc
    simp only [hc, List.cons_append, List.mem_cons, List.mem_append, List.mem_map,
      List.mem_singleton, List.not_mem_nil, or_false] at he
    rcases he with rfl | (⟨i, -, rfl⟩ | ⟨c, -, rfl⟩) | rfl
    · exact ⟨rfl, fun q hq => by simp [Event.ofProtocol, Ne.symm hq]⟩
    · exact ⟨rfl, fun q hq => by simp [Event.ofProtocol, Ne.symm hq]⟩
    · exact ⟨rfl, fun q hq => by simp [Event.ofProtocol, Ne.symm hq]⟩
    · exact ⟨rfl, fun q hq => by simp [Event.ofProtocol, hp, Ne.symm hq]⟩

theorem makeRestRequest_length (env : RestEnv) : (makeRestRequest env).length = 1 :=
  perform_length (RequestEnv.rest env)

theorem makeGrpcRequest_length (env : GrpcEnv) : (makeGrpcRequest env).length = 1 :=
  perform_length (RequestEnv.grpc env)

theorem makeGrpcRequestRaw_length (env : GrpcRawEnv) : (makeGrpcRequestRaw env).length = 1 :=
  perform_length (RequestEnv.grpcRaw env)

/-- The function `benchmarkRest` always returns an analytics: its ten thousand
calls cannot make the request counter wrap. -/
theorem benchmarkRest_ok (size : Int) (env : RestBenchEnv) :
    ∃ b, (benchmarkRest size env).result = Except.ok b := by
  obtain ⟨b, -, hb⟩ := runWorkers_result (newAnalytics ProtocolRest env.start size) 100 100
    (fun i j => makeRestRequest (env.reqs i j)) env.picks
    (fun i j => makeRestRequest_length _) (newAnalytics_inRange _ _ _) rfl (by decide)
  exact ⟨b, hb⟩

theorem benchmarkGrpc_ok (size : Int) (env : GrpcBenchEnv) (h1 : env.dialErr = false)
    (h2 : env.testErr = false) : ∃ b, (benchmarkGrpc size env).result = Except.ok b := by
  obtain ⟨b, -, hb⟩ := runWorkers_result (newAnalytics ProtocolGrpc env.start size) 100 100
    (fun i j => makeGrpcRequest (env.reqs i j)) env.picks
    (fun i j => makeGrpcRequest_length _) (newAnalytics_inRange _ _ _) rfl (by decide)
  refine ⟨b, ?_⟩
  unfold benchmarkGrpc
  simp only [h1, h2, Bool.false_eq_true, if_false]
  exact hb

theorem benchmarkRest_events (size : Int) (env : RestBenchEnv) :
    ∀ e ∈ (benchmarkRest size env).events,
      e.isFileWritten = false ∧ ∀ q, q ≠ ProtocolRest → e.ofProtocol q = false :=
  runWorkers_events (newAnalytics ProtocolRest env.start size) 100 100 _ env.picks

theorem benchmarkGrpc_events (size : Int) (env : GrpcBenchEnv) :
    ∀ e ∈ (benchmarkGrpc size env).events,
      e.isFileWritten = false ∧ ∀ q, q ≠ ProtocolGrpc → e.ofProtocol q = false := by
  unfold benchmarkGrpc
  split_ifs
  · intro e he; simp at he
  · intro e he; simp at he
  · exact runWorkers_events (newAnalytics ProtocolGrpc env.start size) 100 100 _ env.picks

theorem benchmarkGrpcRaw_events (size : Int) (env : GrpcRawBenchEnv) :
    ∀ e ∈ (benchmarkGrpcRaw size env).events,
      e.isFileWritten = false ∧ ∀ q, q ≠ ProtocolGrpcRaw → e.ofProtocol q = false := by
  unfold benchmarkGrpcRaw
  split_ifs
  · intro e he; simp at he
  · intro e he; simp at he
  · intro e he; simp at he
  · exact runWorkers_events (newAnalytics ProtocolGrpcRaw env.start size) 100 100 _ env.picks

theorem benchmarkGrpc_test_failure (size : Int) (g : GrpcBenchEnv) (h1 : g.dialErr = false)
    (h2 : g.testErr = true) :
    benchmarkGrpc size g = ⟨[], Except.error (Stop.fatal "Test request failed")⟩ := by
  unfold benchmarkGrpc
  simp [h1, h2]

theorem benchmarkGrpcRaw_test_failure (size : Int) (g : GrpcRawBenchEnv)
    (h1 : g.dialErr = false) (h2 : g.testErr = true ∨ g.testUnmarshalErr = true) :
    benchmarkGrpcRaw size g = ⟨[], Except.error (Stop.fatal "Test request failed")⟩ := by
  unfold benchmarkGrpcRaw
  rcases h2 with h | h
  · simp [h1, h]
  · cases ht : g.testErr <;> simp [h1, h, ht]

theorem andThen_ok {α β : Type} (r : Run α) (k : α → Run β) (a : α)
    (h : r.result = Except.ok a) :
    r.andThen k = ⟨r.events ++ (k a).events, (k a).result⟩ := by
  unfold Run.andThen
  rw [h]

/-! ## A healthy run has an encodable report -/

namespace F64

theorem round_one : round false 1 = num false 1 := by
  have := round_natCast false 1 (by norm_num)
  simpa using this

theorem div_natCast_one (n : Nat) (h : n < 9007199254740992) :
    div (ofInt (n : Int)) (num false 1) = num false n := by
  rw [ofInt_natCast n h]
  simp only [div, one_ne_zero, if_false, div_one, Bool.xor_false]
  exact round_natCast false n h

end F64

theorem time.Seconds_second : time.Seconds 1000000000 = F64.num false 1 := by
  unfold time.Seconds time.Second
  have h1 : Int.tdiv 1000000000 1000000000 = 1 := by decide
  have h2 : Int.tmod 1000000000 1000000000 = 0 := by decide
  rw [h1, h2, F64.ofInt_zero]
  have h3 : F64.ofInt 1 = F64.num false 1 := by
    have := F64.ofInt_natCast 1 (by norm_num)
    simpa using this
  rw [h3]
  have h4 : F64.div (F64.num false 0) (F64.num false 1000000000) = F64.num false 0 := by
    simp [F64.div, F64.round]
  rw [h4]
  have h5 : F64.signed false 1 + F64.signed false 0 = 1 := by simp [F64.signed]
  simp only [F64.add, h5, one_ne_zero, if_false, abs_one]
  have h6 : decide ((1 : ℚ) < 0) = false := by simp
  rw [h6]
  exact F64.round_one

/-- A run of identical successful calls, recorded one second after the start,
ends with finite `float64` fields. -/
theorem runWorkers_supported (p : String) (start size : Int) (N M : Nat)
    (request : Nat → Nat → List Call) (picks : List Nat) (l : Int) (n : Nat) (t : Int)
    (hreq : ∀ i j, request i j = [⟨l, n, true, t⟩]) (hk : 1 ≤ N * M)
    (hkn : n * (N * M) < 9007199254740992) (hN : N * M < 9007199254740992)
    (hel : time.Sub t start = 1000000000) :
    ∃ b, (runWorkers (newAnalytics p start size) N M request picks).result = Except.ok b ∧
      unsupportedValue b = false := by
  have hone : ∀ i j, (request i j).length = 1 := fun i j => by rw [hreq i j]; rfl
  have hkI : ((N * M : Nat) : Int) < 9223372036854775808 := by
    have : ((N * M : Nat) : Int) < 9007199254740992 := by exact_mod_cast hN
    linarith
  obtain ⟨b, hb, hres⟩ := runWorkers_result (newAnalytics p start size) N M request picks hone
    (newAnalytics_inRange _ _ _) rfl hkI
  have hlen := serialised_length N M request picks hone
  have hcalls : ∀ c ∈ serialised N M request picks, c.bodySize = (n : Int) ∧ c.now = t := by
    intro c hc
    obtain ⟨i, _, j, _, hmem⟩ := mem_serialised hc
    rw [hreq i j, List.mem_singleton] at hmem
    subst hmem
    exact ⟨rfl, rfl⟩
  have hne : serialised N M request picks ≠ [] := by
    intro h; rw [h] at hlen; simp only [List.length_nil] at hlen; rw [← hlen] at hk
    exact absurd hk (by decide)
  obtain ⟨b', hb', bT, -, -, -, bB, -, bS, -, bD⟩ := applyCalls_spec
    (serialised N M request picks) (newAnalytics p start size)
    (newAnalytics_inRange _ _ _) (by simp [newAnalytics])
    (by rw [hlen]; simpa [newAnalytics] using hkI)
  have hbb : b' = b := by rw [hb] at hb'; exact (Option.some.inj hb').symm
  subst hbb
  have hE := applyCalls_endTime _ _ _ hb' (fun c hc => (hcalls c hc).2) hne
  have sB := sumBytes_const (fun c hc => (hcalls c hc).1)
  rw [hlen] at bT sB
  simp only [newAnalytics, zero_add, Nat.cast_zero] at bT bB bS
  rw [sB] at bB
  have hknI : ((n * (N * M) : Nat) : Int) < 9007199254740992 := by exact_mod_cast hkn
  have hnn : (0 : Int) ≤ ((n * (N * M) : Nat) : Int) := Int.natCast_nonneg _
  have hB : b'.TotalBytes = ((n * (N * M) : Nat) : Int) := by
    have he : ((N * M : Nat) : Int) * (n : Int) = ((n * (N * M) : Nat) : Int) := by
      push_cast; ring
    rw [bB, he]; apply wrap64_of_isInt64; unfold isInt64; constructor <;> linarith
  obtain ⟨-, dA, dD, dR, dP⟩ := bD hne
  have hD : b'.TotalDuration = 1000000000 := by rw [dD, hE, bS]; exact hel
  have hA : b'.AverageBodySize = F64.num false n := by
    rw [dA, hB, bT]
    exact F64.div_natCast_exact (n * (N * M)) (N * M) n hk rfl hkn hN
      (lt_of_le_of_lt (Nat.le_mul_of_pos_right n hk) hkn)
  have hR : b'.RequestsPerSec = F64.num false ((N * M : Nat) : ℚ) := by
    rw [dR, hD, time.Seconds_second, bT]; exact F64.div_natCast_one _ hN
  have hP : b'.BytesPerSec = F64.num false ((n * (N * M) : Nat) : ℚ) := by
    rw [dP, hD, time.Seconds_second, hB]; exact F64.div_natCast_one _ hkn
  refine ⟨b', hres, ?_⟩
  unfold unsupportedValue
  rw [hA, hR, hP]
  rfl

theorem andThen_result_congr {α β : Type} (r : Run α) (k1 k2 : α → Run β)
    (h : ∀ a, (k1 a).result = (k2 a).result) :
    (r.andThen k1).result = (r.andThen k2).result := by
  unfold Run.andThen
  cases r.result with
  | error e => rfl
  | ok a => exact h a

theorem andThen_events_of_ok {α β : Type} (r : Run α) (k : α → Run β) (a : α)
    (h : r.result = Except.ok a) : (r.andThen k).events = r.events ++ (k a).events := by
  rw [andThen_ok r k a h]

theorem sampleRest_calls :
    makeRestRequest sampleRest = [⟨2000000, ((500 : Nat) : Int), true, 1000000000⟩] := by
  decide

theorem sampleGrpc_calls :
    makeGrpcRequest sampleGrpc = [⟨1000000, ((300 : Nat) : Int), true, 1000000000⟩] := by
  decide

theorem sampleGrpcRaw_calls :
    makeGrpcRequestRaw sampleGrpcRaw = [⟨1000000, ((310 : Nat) : Int), true, 1000000000⟩] := by
  decide

theorem second_after_start : time.Sub 1000000000 0 = 1000000000 := by decide

theorem sampleRest_run : ∃ b, (benchmarkRest 1 writeFailureEnv.rest).result = Except.ok b ∧
    unsupportedValue b = false := by
  have e : benchmarkRest 1 writeFailureEnv.rest = runWorkers (newAnalytics ProtocolRest 0 1)
      100 100 (fun _ _ => makeRestRequest sampleRest) [] := by
    unfold benchmarkRest
    simp only [writeFailureEnv]
  rw [e]
  exact runWorkers_supported ProtocolRest 0 1 100 100 (fun _ _ => makeRestRequest sampleRest) []
    2000000 500 1000000000 (fun _ _ => sampleRest_calls) (by norm_num) (by norm_num)
    (by norm_num) second_after_start

theorem sampleGrpc_run : ∃ b, (benchmarkGrpc 1 writeFailureEnv.grpc).result = Except.ok b ∧
    unsupportedValue b = false := by
  have e : benchmarkGrpc 1 writeFailureEnv.grpc = runWorkers (newAnalytics ProtocolGrpc 0 1)
      100 100 (fun _ _ => makeGrpcRequest sampleGrpc) [] := by
    unfold benchmarkGrpc
    simp only [writeFailureEnv, Bool.false_eq_true, if_false]
  rw [e]
  exact runWorkers_supported ProtocolGrpc 0 1 100 100 (fun _ _ => makeGrpcRequest sampleGrpc) []
    1000000 300 1000000000 (fun _ _ => sampleGrpc_calls) (by norm_num) (by norm_num)
    (by norm_num) second_after_start

theorem sampleGrpcRaw_run :
    ∃ b, (benchmarkGrpcRaw 1 writeFailureEnv.grpcRaw).result = Except.ok b ∧
      unsupportedValue b = false := by
  have e : benchmarkGrpcRaw 1 writeFailureEnv.grpcRaw =
      runWorkers (newAnalytics ProtocolGrpcRaw 0 1) 100 100
        (fun _ _ => makeGrpcRequestRaw sampleGrpcRaw) [] := by
    unfold benchmarkGrpcRaw
    simp only [writeFailureEnv, Bool.false_eq_true, if_false]
  rw [e]
  exact runWorkers_supported ProtocolGrpcRaw 0 1 100 100
    (fun _ _ => makeGrpcRequestRaw sampleGrpcRaw) [] 1000000 310 1000000000
    (fun _ _ => sampleGrpcRaw_calls) (by norm_num) (by norm_num) (by norm_num)
    second_after_start

/-- Every order in which the lock can admit the calls is chosen by some picks. -/
theorem schedule_complete {α : Type} {ws : List (List α)} {l : List α}
    (h : Interleaving ws l) : ∃ picks, schedule picks ws = l := by
  induction h with
  | done ws h =>
    refine ⟨[], ?_⟩
    show ws.flatten = []
    rw [List.flatten_eq_nil_iff]
    exact h
  | step ws i x rest l h _ ih =>
    obtain ⟨picks, hp⟩ := ih
    refine ⟨i :: picks, ?_⟩
    simp only [schedule, h, hp]

theorem applyCalls_singleton (a : ClientAnalytics) (c : Call) :
    applyCalls a [c] = recordMetrics a c.latency c.bodySize c.success c.now := by
  unfold applyCalls applyCall
  cases recordMetrics a c.latency c.bodySize c.success c.now with
  | none => rfl
  | some b => rfl

/-- Along a request the clock reads run start, request start, end of the
request and recording in this order; an elapsed time of zero at the recording
then leaves a latency of zero. -/
theorem zero_elapsed_forces_zero_latency {runStart start done rec : Int}
    (h0 : isInt64 runStart) (h3 : isInt64 rec) (h4 : runStart ≤ start) (h5 : start ≤ done)
    (h6 : done ≤ rec) (hel : time.Sub rec runStart = 0) : time.Since start done = 0 := by
  unfold isInt64 at h0 h3
  have hrec : rec = runStart := by
    unfold time.Sub time.subMono time.maxDuration time.minDuration wrap64 at hel
    simp only at hel
    split_ifs at hel <;> omega
  have hsd : done = start := by omega
  rw [hsd]
  exact time.subMono_self start

/-! ## Claims -/

/-- C1: after every call of `recordMetrics` on a freshly created analytics the
counter equation `TotalRequests == SuccessRequests + FailedRequests` holds as Go
evaluates it; and for fewer than `2^63` calls no call panics, no counter wraps
and the equation holds over the integers. -/
theorem counters_agree_after_every_call (protocol : String) (start : Int) (size : Int)
    (calls : List Call) :
    (∀ s ∈ trace (newAnalytics protocol start size) calls,
      s.TotalRequests = wrap64 (s.SuccessRequests + s.FailedRequests)) ∧
    ((calls.length : Int) < 9223372036854775808 →
      (trace (newAnalytics protocol start size) calls).length = calls.length ∧
      ∀ s ∈ trace (newAnalytics protocol start size) calls,
        s.TotalRequests = s.SuccessRequests + s.FailedRequests) := by
  constructor
  · exact trace_countersAgree calls _ (by unfold CountersAgree newAnalytics wrap64; simp)
  · intro hlen
    have h := trace_countersExact calls (newAnalytics protocol start size)
      (by unfold CountersExact newAnalytics; simp) (by simpa [newAnalytics] using hlen)
    exact ⟨h.1, fun s hs => (h.2 s hs).2.2⟩

theorem counters_agree_after_every_call_witness :
    (([⟨5, 10, true, 1⟩, ⟨7, 0, false, 2⟩] : List Call).length : Int) < 9223372036854775808 ∧
    (trace (newAnalytics ProtocolRest 0 1) [⟨5, 10, true, 1⟩, ⟨7, 0, false, 2⟩]).length = 2 ∧
    ∀ s ∈ trace (newAnalytics ProtocolRest 0 1) [⟨5, 10, true, 1⟩, ⟨7, 0, false, 2⟩],
      s.TotalRequests = s.SuccessRequests + s.FailedRequests :=
  ⟨by decide, (counters_agree_after_every_call ProtocolRest 0 1
    [⟨5, 10, true, 1⟩, ⟨7, 0, false, 2⟩]).2 (by decide)⟩

/-- C2 (defect of the code): `MinLatency` is not the minimum of the recorded
latencies.  After the latencies 0ns and 1ms it is 1ms, above the recorded 0ns: a
recorded latency of zero is taken for "unset" and overwritten by the next one.
After the single latency 2h it is still the initial `time.Hour`, a latency that
was never recorded.  `MaxLatency` is the maximum in both runs. -/
theorem minLatency_not_minimum :
    (∃ b, applyCalls (newAnalytics ProtocolRest 0 1000)
        [⟨0, 0, false, 1⟩, ⟨1000000, 0, false, 2⟩] = some b ∧
      b.MinLatency = 1000000 ∧ b.MaxLatency = 1000000 ∧
      ∃ c ∈ ([⟨0, 0, false, 1⟩, ⟨1000000, 0, false, 2⟩] : List Call),
        c.latency < b.MinLatency) ∧
    (∃ b, applyCalls (newAnalytics ProtocolGrpc 0 1000)
        [⟨7200000000000, 100, true, 7200000000001⟩] = some b ∧
      b.MinLatency = time.Hour ∧ b.MaxLatency = 7200000000000 ∧
      ∀ c ∈ ([⟨7200000000000, 100, true, 7200000000001⟩] : List Call),
        c.latency ≠ b.MinLatency) := by
  constructor
  · obtain ⟨b, hb, hm⟩ := Option.map_eq_some'.mp
      (show (applyCalls (newAnalytics ProtocolRest 0 1000)
        [⟨0, 0, false, 1⟩, ⟨1000000, 0, false, 2⟩]).map
          (fun b => (b.MinLatency, b.MaxLatency)) = some (1000000, 1000000) by decide)
    simp only [Prod.mk.injEq] at hm
    refine ⟨b, hb, hm.1, hm.2, ⟨0, 0, false, 1⟩, by simp, ?_⟩
    rw [hm.1]; decide
  · obtain ⟨b, hb, hm⟩ := Option.map_eq_some'.mp
      (show (applyCalls (newAnalytics ProtocolGrpc 0 1000)
        [⟨7200000000000, 100, true, 7200000000001⟩]).map
          (fun b => (b.MinLatency, b.MaxLatency)) = some (3600000000000, 7200000000000)
        by decide)
    simp only [Prod.mk.injEq] at hm
    refine ⟨b, hb, hm.1, hm.2, ?_⟩
    intro c hc
    simp only [List.mem_singleton] at hc
    rw [hc, hm.1]; decide

/-- C3: for a non-empty sequence of fewer than `2^63` calls recorded into a fresh
analytics no call panics, `TotalLatency` is the `int64` sum of the recorded
latencies and `AverageLatency` is that sum divided by the number of calls with
truncation toward zero; when the sum of the latencies fits in an `int64` these
are the exact sum and the exact truncated quotient. -/
theorem averageLatency_is_truncated_mean (protocol : String) (start : Int) (size : Int)
    (calls : List Call) (hne : calls ≠ []) (hlen : (calls.length : Int) < 9223372036854775808) :
    ∃ b, applyCalls (newAnalytics protocol start size) calls = some b ∧
      b.TotalLatency = wrap64 (sumLatency calls) ∧
      b.AverageLatency = wrap64 (Int.tdiv (wrap64 (sumLatency calls)) calls.length) ∧
      (isInt64 (sumLatency calls) →
        b.TotalLatency = sumLatency calls ∧
        b.AverageLatency = Int.tdiv (sumLatency calls) calls.length) := by
  obtain ⟨b, hb, bT, -, -, bL, -, -, -, -, bD⟩ :=
    applyCalls_spec calls (newAnalytics protocol start size) (newAnalytics_inRange _ _ _)
      (by simp [newAnalytics]) (by simpa [newAnalytics] using hlen)
  have hT : b.TotalRequests = calls.length := by rw [bT]; simp [newAnalytics]
  have hL : b.TotalLatency = wrap64 (sumLatency calls) := by rw [bL]; simp [newAnalytics]
  have hA : b.AverageLatency = wrap64 (Int.tdiv (wrap64 (sumLatency calls)) calls.length) := by
    rw [(bD hne).1, hL, hT]
  refine ⟨b, hb, hL, hA, ?_⟩
  intro hr
  have hpos : (1 : Int) ≤ calls.length := by
    cases calls with
    | nil => exact absurd rfl hne
    | cons c cs => simp only [List.length_cons, Nat.cast_add, Nat.cast_one]; omega
  rw [hA, hL, wrap64_of_isInt64 hr, wrap64_of_isInt64 (isInt64_tdiv hr hpos)]
  exact ⟨rfl, rfl⟩

theorem averageLatency_is_truncated_mean_witness :
    ([⟨5, 10, true, 1⟩, ⟨8, 0, false, 2⟩] : List Call) ≠ [] ∧
    (([⟨5, 10, true, 1⟩, ⟨8, 0, false, 2⟩] : List Call).length : Int) < 9223372036854775808 ∧
    ∃ b, applyCalls (newAnalytics ProtocolRest 0 1)
        [⟨5, 10, true, 1⟩, ⟨8, 0, false, 2⟩] = some b ∧
      b.TotalLatency = 13 ∧ b.AverageLatency = 6 := by
  refine ⟨by simp, by decide, ?_⟩
  obtain ⟨b, hb, -, -, h⟩ := averageLatency_is_truncated_mean ProtocolRest 0 1
    [⟨5, 10, true, 1⟩, ⟨8, 0, false, 2⟩] (by simp) (by decide)
  obtain ⟨h1, h2⟩ := h (by decide)
  exact ⟨b, hb, h1.trans (by decide), h2.trans (by decide)⟩

/-- C6 (counterexample): a REST request that succeeds with a body of 500 bytes
within the clock reading at which the run started (run start, request start, end
of the request and recording all read 5) is recorded with a latency of zero and
an elapsed time of zero, and the derived `RequestsPerSec` and `BytesPerSec` are
`+Inf`, not zero. -/
theorem throughput_not_zero_at_zero_elapsed :
    ∃ b, applyCalls (newAnalytics ProtocolRest 5 1)
        (makeRestRequest ⟨5, false, false, false, 500, 200, 5, 5⟩) = some b ∧
      b.TotalDuration = 0 ∧ b.RequestsPerSec = F64.inf false ∧ b.BytesPerSec = F64.inf false ∧
      b.RequestsPerSec.isZero = false ∧ b.BytesPerSec.isZero = false := by
  obtain ⟨b, hb, hd, hr, hp, -, -⟩ := recordMetrics_zero_elapsed (newAnalytics ProtocolRest 5 1)
    0 500 true 5 (by decide) (by decide) (by decide)
  have hbytes : 0 < b.TotalBytes := by
    rw [(recordMetrics_eq_some hb).2.2.2.2.2.2.2.2.2.1]; decide
  have hcall : makeRestRequest ⟨5, false, false, false, 500, 200, 5, 5⟩
      = [⟨0, 500, true, 5⟩] := by decide
  refine ⟨b, ?_, hd, hr, hp hbytes, ?_, ?_⟩
  · rw [hcall, applyCalls_singleton]; exact hb
  · rw [hr]; rfl
  · rw [hp hbytes]; rfl

/-- C6 (amended): `recordMetrics` has no guard.  On an analytics that has recorded
fewer than `2^63 - 1` calls every call completes, whatever the clock reads: the
divisor `TotalRequests` is at least one, and the derived fields are the unguarded
quotients.  When the elapsed time is zero the float divisions give
`RequestsPerSec = +Inf` and `BytesPerSec = +Inf`, NaN or `-Inf` as `TotalBytes`
is positive, zero or negative. -/
theorem throughput_at_zero_elapsed (a : ClientAnalytics) (latency bodySize : Int)
    (success : Bool) (now : Int)
    (h0 : 0 ≤ a.TotalRequests) (h1 : a.TotalRequests + 1 < 9223372036854775808) :
    ∃ b, recordMetrics a latency bodySize success now = some b ∧
      1 ≤ b.TotalRequests ∧
      b.AverageLatency = wrap64 (Int.tdiv b.TotalLatency b.TotalRequests) ∧
      b.AverageBodySize = F64.div (F64.ofInt b.TotalBytes) (F64.ofInt b.TotalRequests) ∧
      b.TotalDuration = time.Sub now a.StartTime ∧
      b.RequestsPerSec = F64.div (F64.ofInt b.TotalRequests) (time.Seconds b.TotalDuration) ∧
      b.BytesPerSec = F64.div (F64.ofInt b.TotalBytes) (time.Seconds b.TotalDuration) ∧
      (time.Sub now a.StartTime = 0 →
        b.TotalDuration = 0 ∧ b.RequestsPerSec = F64.inf false ∧
        (0 < b.TotalBytes → b.BytesPerSec = F64.inf false) ∧
        (b.TotalBytes = 0 → b.BytesPerSec = F64.nan) ∧
        (b.TotalBytes < 0 → b.BytesPerSec = F64.inf true)) := by
  have hne : wrap64 (a.TotalRequests + 1) ≠ 0 := by unfold wrap64; omega
  obtain ⟨b, hb⟩ := recordMetrics_isSome a latency bodySize success now hne
  obtain ⟨-, -, hS, -, hE, hT, -, -, -, -, -, -, dA, dB, dD, dR, dP⟩ :=
    recordMetrics_eq_some hb
  have hT1 : 1 ≤ b.TotalRequests := by rw [hT]; unfold wrap64; omega
  have hD : b.TotalDuration = time.Sub now a.StartTime := by rw [dD, hE, hS]
  refine ⟨b, hb, hT1, dA, dB, hD, dR, dP, ?_⟩
  intro hel
  obtain ⟨b2, hb2, hd, hr, hp, hz, hn⟩ :=
    recordMetrics_zero_elapsed a latency bodySize success now h0 h1 hel
  have hbb : b2 = b := by rw [hb] at hb2; exact (Option.some.inj hb2).symm
  subst hbb
  exact ⟨hd, hr, hp, hz, hn⟩

theorem throughput_at_zero_elapsed_witness :
    ∃ b, applyCalls (newAnalytics ProtocolGrpc 7 1) (makeGrpcRequest ⟨7, true, 64, 7, 7⟩)
        = some b ∧
      1 ≤ b.TotalRequests ∧ b.TotalDuration = 0 ∧
      b.RequestsPerSec = F64.inf false ∧ b.BytesPerSec = F64.nan := by
  obtain ⟨b, hb, hT, -, -, -, -, -, hz⟩ := throughput_at_zero_elapsed
    (newAnalytics ProtocolGrpc 7 1) 0 0 false 7 (by decide) (by decide)
  obtain ⟨hd, hr, -, hnan, -⟩ := hz (by decide)
  have hbytes : b.TotalBytes = 0 := by
    rw [(recordMetrics_eq_some hb).2.2.2.2.2.2.2.2.2.1]; decide
  have hcall : makeGrpcRequest ⟨7, true, 64, 7, 7⟩ = [⟨0, 0, false, 7⟩] := by decide
  refine ⟨b, ?_, hT, hd, hr, hnan hbytes⟩
  rw [hcall, applyCalls_singleton]; exact hb

/-- C5: when the transport call, the body read or the decode step of a request
of any of the three variants fails, and the clock did not run backwards since the
request started, the request function makes exactly one call of `recordMetrics`,
with `success = false`, `bodySize = 0` and a latency that is the time elapsed
since the start and is not negative; applied to an analytics that has recorded
fewer than `2^63 - 1` calls the call completes and counts one more request. -/
theorem faulted_request_records_failure (env : RequestEnv) (hfault : env.faulted = true)
    (hs : isInt64 env.startTime) (hd : isInt64 env.doneTime)
    (hmono : env.startTime ≤ env.doneTime) :
    ∃ c, env.perform = [c] ∧ c.success = false ∧ c.bodySize = 0 ∧
      c.latency = time.Since env.startTime env.doneTime ∧ 0 ≤ c.latency ∧
      (c.latency = env.doneTime - env.startTime ∨ c.latency = time.maxDuration) ∧
      ∀ a : ClientAnalytics, 0 ≤ a.TotalRequests →
        a.TotalRequests + 1 < 9223372036854775808 →
        ∃ b, applyCalls a env.perform = some b ∧ b.TotalRequests = a.TotalRequests + 1 ∧
          b.SuccessRequests = a.SuccessRequests := by
  have hlat := time.subMono_of_le hd hs hmono
  have key : env.perform =
      [⟨time.Since env.startTime env.doneTime, 0, false, env.recordTime⟩] := by
    cases env with
    | rest e =>
      simp only [RequestEnv.faulted, Bool.or_eq_true] at hfault
      simp only [RequestEnv.perform, makeRestRequest, RequestEnv.startTime, RequestEnv.doneTime,
        RequestEnv.recordTime]
      rcases hfault with (h | h) | h
      · simp [h]
      · simp [h]
      · simp [h]
    | grpc e =>
      simp only [RequestEnv.faulted] at hfault
      simp [RequestEnv.perform, makeGrpcRequest, RequestEnv.startTime, RequestEnv.doneTime,
        RequestEnv.recordTime, hfault]
    | grpcRaw e =>
      simp only [RequestEnv.faulted, Bool.or_eq_true] at hfault
      simp only [RequestEnv.perform, makeGrpcRequestRaw, RequestEnv.startTime,
        RequestEnv.doneTime, RequestEnv.recordTime]
      rcases hfault with h | h
      · simp [h]
      · simp [h]
  refine ⟨_, key, rfl, rfl, rfl, hlat.1, hlat.2, ?_⟩
  intro a h0 h1
  have hne : wrap64 (a.TotalRequests + 1) ≠ 0 := by unfold wrap64; omega
  obtain ⟨b, hb⟩ := recordMetrics_isSome a (time.Since env.startTime env.doneTime) 0 false
    env.recordTime hne
  obtain ⟨-, -, -, -, -, hT, hS, -⟩ := recordMetrics_eq_some hb
  refine ⟨b, ?_, ?_, ?_⟩
  · rw [key]; simp only [applyCalls, applyCall, hb]
  · rw [hT]; unfold wrap64; omega
  · simpa using hS

theorem faulted_request_records_failure_witness :
    ∃ c, (RequestEnv.grpcRaw ⟨100, false, true, 64, 350, 360⟩).perform = [c] ∧
      c.success = false ∧ c.bodySize = 0 ∧ c.latency = 250 := by
  obtain ⟨c, hc, h1, h2, h3, -⟩ := faulted_request_records_failure
    (RequestEnv.grpcRaw ⟨100, false, true, 64, 350, 360⟩) (by decide) (by decide) (by decide)
    (by decide)
  exact ⟨c, hc, h1, h2, h3.trans (by decide)⟩

/-- C10: `makeRestRequest` makes one call of `recordMetrics`; its `success` is
true exactly when the GET, the body read and the JSON decoding returned no error
and the status code is 200; and whenever these three steps return no error its
`bodySize` is the length of the body, whatever the status code. -/
theorem rest_success_iff (env : RestEnv) :
    ∃ c, makeRestRequest env = [c] ∧
      (c.success = true ↔
        (env.getErr = false ∧ env.readErr = false ∧ env.unmarshalErr = false ∧
          env.statusCode = 200)) ∧
      (env.getErr = false → env.readErr = false → env.unmarshalErr = false →
        c.bodySize = env.bodyLen) := by
  unfold makeRestRequest
  cases hg : env.getErr
  · cases hr : env.readErr
    · cases hu : env.unmarshalErr
      · simp [StatusOK]
      · simp
    · simp
  · simp

theorem rest_success_iff_witness :
    ∃ c, makeRestRequest ⟨0, false, false, false, 4096, 404, 10, 11⟩ = [c] ∧
      c.success = false ∧ c.bodySize = 4096 := by
  obtain ⟨c, hc, h1, h2⟩ := rest_success_iff ⟨0, false, false, false, 4096, 404, 10, 11⟩
  refine ⟨c, hc, ?_, h2 rfl rfl rfl⟩
  cases hs : c.success
  · rfl
  · exact absurd (h1.mp hs).2.2.2 (by decide)

/-- C4: each of the three request functions makes exactly one call of
`recordMetrics` on every path; hence a run of `N` workers issuing `M` requests
each against a fresh analytics, `N * M < 2^63`, ends for every order in which
the lock serialises the calls with `TotalRequests = N * M`, and with
`SuccessRequests = N * M` and `FailedRequests = 0` when every request succeeds. -/
theorem total_requests_is_workers_times_requests (N M : Nat) (envs : Nat → Nat → RequestEnv)
    (protocol : String) (start size : Int)
    (hNM : ((N * M : Nat) : Int) < 9223372036854775808) :
    (∀ e : RequestEnv, e.perform.length = 1) ∧
    (∀ picks : List Nat,
      ∃ b, (runWorkers (newAnalytics protocol start size) N M (fun i j => (envs i j).perform)
          picks).result = Except.ok b ∧
        b.TotalRequests = ((N * M : Nat) : Int) ∧
        ((∀ i j, i < N → j < M → (envs i j).succeeded = true) →
          b.SuccessRequests = ((N * M : Nat) : Int) ∧ b.FailedRequests = 0)) ∧
    (∀ order : List Call,
      Interleaving ((List.range N).map (workerCalls (fun i j => (envs i j).perform) M)) order →
      ∃ b, applyCalls (newAnalytics protocol start size) order = some b ∧
        b.TotalRequests = ((N * M : Nat) : Int) ∧
        ((∀ i j, i < N → j < M → (envs i j).succeeded = true) →
          b.SuccessRequests = ((N * M : Nat) : Int) ∧ b.FailedRequests = 0)) := by
  have hone : ∀ i j, ((fun i j => (envs i j).perform) i j).length = 1 :=
    fun i j => perform_length (envs i j)
  have key : ∀ picks : List Nat,
      ∃ b, applyCalls (newAnalytics protocol start size)
          (serialised N M (fun i j => (envs i j).perform) picks) = some b ∧
        (runWorkers (newAnalytics protocol start size) N M (fun i j => (envs i j).perform)
          picks).result = Except.ok b ∧
        b.TotalRequests = ((N * M : Nat) : Int) ∧
        ((∀ i j, i < N → j < M → (envs i j).succeeded = true) →
          b.SuccessRequests = ((N * M : Nat) : Int) ∧ b.FailedRequests = 0) := by
    intro picks
    obtain ⟨b, hb, hres⟩ := runWorkers_result (newAnalytics protocol start size) N M
      (fun i j => (envs i j).perform) picks hone (newAnalytics_inRange _ _ _) rfl hNM
    have hlen := serialised_length N M (fun i j => (envs i j).perform) picks hone
    obtain ⟨b', hb', bT, bS, bF, -⟩ := applyCalls_spec
      (serialised N M (fun i j => (envs i j).perform) picks) (newAnalytics protocol start size)
      (newAnalytics_inRange _ _ _) (by simp [newAnalytics])
      (by rw [hlen]; simpa [newAnalytics] using hNM)
    have hbb : b' = b := by rw [hb] at hb'; exact (Option.some.inj hb').symm
    subst hbb
    refine ⟨b', hb, hres, ?_, ?_⟩
    · rw [bT, hlen]; simp [newAnalytics]
    · intro hall
      have hs : ∀ c ∈ serialised N M (fun i j => (envs i j).perform) picks,
          c.success = true := by
        intro c hc
        obtain ⟨i, hi, j, hj, hmem⟩ := mem_serialised hc
        obtain ⟨d, hd, hsucc⟩ := perform_eq_singleton (envs i j)
        simp only [hd, List.mem_singleton] at hmem
        rw [hmem, hsucc]; exact hall i j hi hj
      obtain ⟨c1, c2⟩ := countSuccess_of_all hs
      rw [bS, bF, c1, c2, hlen]
      have hnn : (0 : Int) ≤ ((N * M : Nat) : Int) := Int.natCast_nonneg _
      simp only [newAnalytics, zero_add, Nat.cast_zero]
      constructor
      · apply wrap64_of_isInt64; unfold isInt64; constructor <;> linarith
      · decide
  refine ⟨perform_length, ?_, ?_⟩
  · intro picks
    obtain ⟨b, -, h2, h3, h4⟩ := key picks
    exact ⟨b, h2, h3, h4⟩
  · intro order hord
    obtain ⟨picks, hp⟩ := schedule_complete hord
    obtain ⟨b, h1, -, h3, h4⟩ := key picks
    have : serialised N M (fun i j => (envs i j).perform) picks = order := hp
    rw [this] at h1
    exact ⟨b, h1, h3, h4⟩

theorem total_requests_is_workers_times_requests_witness :
    (((3 * 2 : Nat)) : Int) < 9223372036854775808 ∧
    ∃ b, (runWorkers (newAnalytics ProtocolGrpc 0 1) 3 2
        (fun i j => (RequestEnv.grpc ⟨i, false, 64, i + j + 5, i + j + 6⟩).perform)
        [2, 0, 2, 1]).result = Except.ok b ∧
      b.TotalRequests = 6 ∧ b.SuccessRequests = 6 ∧ b.FailedRequests = 0 := by
  refine ⟨by decide, ?_⟩
  obtain ⟨b, hb, hT, hS⟩ := (total_requests_is_workers_times_requests 3 2
    (fun i j => RequestEnv.grpc ⟨i, false, 64, i + j + 5, i + j + 6⟩)
    ProtocolGrpc 0 1 (by decide)).2.1 [2, 0, 2, 1]
  obtain ⟨h1, h2⟩ := hS (fun i j _ _ => rfl)
  exact ⟨b, hb, hT, h1, h2⟩

/-- C7: in a run of `N ≥ 1` workers issuing `M ≥ 1` requests each, with
`N * M * 2ms` below `2^63` nanoseconds, in which every REST request succeeds with
a latency of 2ms and a body of 500 bytes, the final analytics has
`TotalRequests = SuccessRequests = N * M`, `FailedRequests = 0`,
`MinLatency = MaxLatency = AverageLatency = 2ms`, `TotalBytes = 500 * N * M` and
`AverageBodySize = 500`, whatever the order of the calls (10 workers issuing 10
requests each: 100 requests). -/
theorem fixed_latency_run_report (N M : Nat) (hN : 1 ≤ N) (hM : 1 ≤ M)
    (hNM : N * M ≤ 4611686018427) (reqs : Nat → Nat → RestEnv) (picks : List Nat)
    (start size : Int)
    (hreq : ∀ i j, i < N → j < M →
      (reqs i j).getErr = false ∧ (reqs i j).readErr = false ∧
      (reqs i j).unmarshalErr = false ∧ (reqs i j).statusCode = 200 ∧
      (reqs i j).bodyLen = 500 ∧
      time.Since (reqs i j).startTime (reqs i j).doneTime = 2 * time.Millisecond) :
    ∃ b, (runWorkers (newAnalytics ProtocolRest start size) N M
        (fun i j => makeRestRequest (reqs i j)) picks).result = Except.ok b ∧
      b.TotalRequests = ((N * M : Nat) : Int) ∧ b.SuccessRequests = ((N * M : Nat) : Int) ∧
      b.FailedRequests = 0 ∧
      b.MinLatency = 2 * time.Millisecond ∧ b.MaxLatency = 2 * time.Millisecond ∧
      b.AverageLatency = 2 * time.Millisecond ∧
      b.TotalBytes = ((500 * (N * M) : Nat) : Int) ∧
      b.AverageBodySize = F64.num false 500 := by
  have hone : ∀ i j, ((fun i j => makeRestRequest (reqs i j)) i j).length = 1 :=
    fun i j => perform_length (RequestEnv.rest (reqs i j))
  have hk1 : 1 ≤ N * M := Nat.mul_pos hN hM
  have hkI : ((N * M : Nat) : Int) < 9223372036854775808 := by
    have : ((N * M : Nat) : Int) ≤ 4611686018427 := by exact_mod_cast hNM
    linarith
  obtain ⟨b, hb, hres⟩ := runWorkers_result (newAnalytics ProtocolRest start size) N M
    (fun i j => makeRestRequest (reqs i j)) picks hone (newAnalytics_inRange _ _ _) rfl hkI
  have hlen := serialised_length N M (fun i j => makeRestRequest (reqs i j)) picks hone
  have hcalls : ∀ c ∈ serialised N M (fun i j => makeRestRequest (reqs i j)) picks,
      c.latency = 2000000 ∧ c.bodySize = 500 ∧ c.success = true := by
    intro c hc
    obtain ⟨i, hi, j, hj, hmem⟩ := mem_serialised hc
    obtain ⟨h1, h2, h3, h4, h5, h6⟩ := hreq i j hi hj
    simp only [makeRestRequest, h1, h2, h3, h4, h5, h6, List.mem_singleton, Bool.false_eq_true,
      if_false] at hmem
    subst hmem
    exact ⟨by simp [time.Millisecond], by simp, by simp [StatusOK]⟩
  have hne : serialised N M (fun i j => makeRestRequest (reqs i j)) picks ≠ [] := by
    intro h; rw [h] at hlen; simp only [List.length_nil] at hlen; rw [← hlen] at hk1
    exact absurd hk1 (by decide)
  obtain ⟨b', hb', bT, bS, bF, bL, bB, -, -, -, bD⟩ := applyCalls_spec
    (serialised N M (fun i j => makeRestRequest (reqs i j)) picks)
    (newAnalytics ProtocolRest start size)
    (newAnalytics_inRange _ _ _) (by simp [newAnalytics])
    (by rw [hlen]; simpa [newAnalytics] using hkI)
  have hbb : b' = b := by rw [hb] at hb'; exact (Option.some.inj hb').symm
  subst hbb
  obtain ⟨c1, c2⟩ := countSuccess_of_all (fun c hc => (hcalls c hc).2.2)
  have sL := sumLatency_const (fun c hc => (hcalls c hc).1)
  have sB := sumBytes_const (fun c hc => (hcalls c hc).2.1)
  obtain ⟨hmin, hmax⟩ := applyCalls_minmax_const _ hne _ _ hb' (fun c hc => (hcalls c hc).1)
    rfl rfl (by decide) (by decide)
  rw [hlen] at bT c1 sL sB
  simp only [newAnalytics, zero_add, Nat.cast_zero] at bT bS bF bL bB
  rw [c1] at bS
  rw [c2] at bF
  rw [sL] at bL
  rw [sB] at bB
  have hk0 : (0 : Int) ≤ ((N * M : Nat) : Int) := Int.natCast_nonneg _
  have hkle : ((N * M : Nat) : Int) ≤ 4611686018427 := by exact_mod_cast hNM
  have hk1I : (1 : Int) ≤ ((N * M : Nat) : Int) := by exact_mod_cast hk1
  have hS : b'.SuccessRequests = ((N * M : Nat) : Int) := by
    rw [bS]; apply wrap64_of_isInt64; unfold isInt64; constructor <;> linarith
  have hL : b'.TotalLatency = ((N * M : Nat) : Int) * 2000000 := by
    rw [bL]; apply wrap64_of_isInt64; unfold isInt64; constructor <;> linarith
  have hB : b'.TotalBytes = ((500 * (N * M) : Nat) : Int) := by
    rw [bB, wrap64_of_isInt64 (by unfold isInt64; constructor <;> linarith)]; push_cast; ring
  have hk_ne : ((N * M : Nat) : Int) ≠ 0 := by
    intro h; rw [h] at hk1I; exact absurd hk1I (by decide)
  have hA : b'.AverageLatency = 2000000 := by
    rw [(bD hne).1, hL, bT, Int.mul_tdiv_cancel_left _ hk_ne]; decide
  have hAB : b'.AverageBodySize = F64.num false 500 := by
    rw [(bD hne).2.1, hB, bT]
    have h5 : 500 * (N * M) < 9007199254740992 := by linarith
    have h6 : N * M < 9007199254740992 := by linarith
    have := F64.div_natCast_exact (500 * (N * M)) (N * M) 500 hk1 rfl h5 h6 (by norm_num)
    simpa using this
  exact ⟨b', hres, bT, hS, bF.trans (by decide), hmin, hmax, hA, hB, hAB⟩

theorem fixed_latency_run_report_witness :
    ∃ b, (runWorkers (newAnalytics ProtocolRest 0 1) 10 10
        (fun i j => makeRestRequest ⟨0, false, false, false, 500, 200, 2000000,
          i + j + 2000001⟩) [3, 1, 4, 1, 5, 9, 2, 6]).result = Except.ok b ∧
      b.TotalRequests = 100 ∧ b.SuccessRequests = 100 ∧ b.FailedRequests = 0 ∧
      b.MinLatency = 2000000 ∧ b.MaxLatency = 2000000 ∧ b.AverageLatency = 2000000 ∧
      b.TotalBytes = 50000 ∧ b.AverageBodySize = F64.num false 500 :=
  fixed_latency_run_report 10 10 (by decide) (by decide) (by decide)
    (fun i j => ⟨0, false, false, false, 500, 200, 2000000, i + j + 2000001⟩)
    [3, 1, 4, 1, 5, 9, 2, 6] 0 1
    (fun _ _ _ _ => ⟨rfl, rfl, rfl, rfl, rfl,
      show time.Since 0 2000000 = 2 * time.Millisecond by decide⟩)

/-- C8: when the test request of `benchmarkGrpc` fails, or the test request of
`benchmarkGrpcRaw` or the decoding of its response fails, the benchmark function
stops the process with `log.Fatalf` before it has built an analytics, started a
worker or made a call of `recordMetrics`; and `main` then ends with that fatal
stop without any action for the protocol and without writing the report array. -/
theorem smoke_test_failure_is_fatal (env : MainEnv) (size : Int) :
    (∀ g : GrpcBenchEnv, g.dialErr = false → g.testErr = true →
      benchmarkGrpc size g = ⟨[], Except.error (Stop.fatal "Test request failed")⟩) ∧
    (∀ g : GrpcRawBenchEnv, g.dialErr = false →
      (g.testErr = true ∨ g.testUnmarshalErr = true) →
      benchmarkGrpcRaw size g = ⟨[], Except.error (Stop.fatal "Test request failed")⟩) ∧
    (env.parseErr = false → env.grpc.dialErr = false → env.grpc.testErr = true →
      (main env).result = Except.error (Stop.fatal "Test request failed") ∧
      ∀ e ∈ (main env).events, e.isFileWritten = false ∧
        e.ofProtocol ProtocolGrpc = false ∧ e.ofProtocol ProtocolGrpcRaw = false) ∧
    (env.parseErr = false → env.grpc.dialErr = false → env.grpc.testErr = false →
      env.grpcRaw.dialErr = false →
      (env.grpcRaw.testErr = true ∨ env.grpcRaw.testUnmarshalErr = true) →
      (main env).result = Except.error (Stop.fatal "Test request failed") ∧
      ∀ e ∈ (main env).events, e.isFileWritten = false ∧
        e.ofProtocol ProtocolGrpcRaw = false) := by
  refine ⟨fun g => benchmarkGrpc_test_failure size g,
    fun g => benchmarkGrpcRaw_test_failure size g, ?_, ?_⟩
  · intro hp h1 h2
    obtain ⟨r, hr⟩ := benchmarkRest_ok env.config.MockSize env.rest
    have hg := benchmarkGrpc_test_failure env.config.MockSize env.grpc h1 h2
    have hm : main env = ⟨(benchmarkRest env.config.MockSize env.rest).events ++ [],
        Except.error (Stop.fatal "Test request failed")⟩ := by
      unfold main
      rw [if_neg (by simp [hp]), andThen_ok _ _ r hr, hg]
      rfl
    rw [hm]
    refine ⟨rfl, ?_⟩
    intro e he
    simp only [List.append_nil] at he
    obtain ⟨hf, hq⟩ := benchmarkRest_events _ _ e he
    exact ⟨hf, hq _ (by decide), hq _ (by decide)⟩
  · intro hp h1 h2 h3 h4
    obtain ⟨r, hr⟩ := benchmarkRest_ok env.config.MockSize env.rest
    obtain ⟨g, hg⟩ := benchmarkGrpc_ok env.config.MockSize env.grpc h1 h2
    have hraw := benchmarkGrpcRaw_test_failure env.config.MockSize env.grpcRaw h3 h4
    have hm : main env = ⟨(benchmarkRest env.config.MockSize env.rest).events ++
        ((benchmarkGrpc env.config.MockSize env.grpc).events ++ []),
        Except.error (Stop.fatal "Test request failed")⟩ := by
      unfold main
      rw [if_neg (by simp [hp]), andThen_ok _ _ r hr, andThen_ok _ _ g hg, hraw]
      rfl
    rw [hm]
    refine ⟨rfl, ?_⟩
    intro e he
    simp only [List.append_nil, List.mem_append] at he
    rcases he with he | he
    · obtain ⟨hf, hq⟩ := benchmarkRest_events _ _ e he
      exact ⟨hf, hq _ (by decide)⟩
    · obtain ⟨hf, hq⟩ := benchmarkGrpc_events _ _ e he
      exact ⟨hf, hq _ (by decide)⟩

theorem smoke_test_failure_is_fatal_witness :
    exitCode (main smokeFailureEnv) = 1 ∧
    (main smokeFailureEnv).result = Except.error (Stop.fatal "Test request failed") ∧
    ∀ e ∈ (main smokeFailureEnv).events, e.isFileWritten = false ∧
      e.ofProtocol ProtocolGrpc = false ∧ e.ofProtocol ProtocolGrpcRaw = false := by
  have h := (smoke_test_failure_is_fatal smokeFailureEnv 1).2.2.1 rfl rfl rfl
  refine ⟨?_, h⟩
  unfold exitCode
  rw [h.1]

/-- C9 (defect of the code): the error of `os.WriteFile` is dropped.  In a
healthy run in which only the final write fails, `main` returns normally, the
exit status is 0 and no report file is written; in every run the way `main` ends
is the same whether the write fails or not. -/
theorem write_failure_is_not_fatal :
    (main writeFailureEnv).result = Except.ok () ∧ exitCode (main writeFailureEnv) = 0 ∧
    (∀ e ∈ (main writeFailureEnv).events, e.isFileWritten = false) ∧
    (∀ env : MainEnv, (main { env with writeErr := true }).result =
      (main { env with writeErr := false }).result) := by
  obtain ⟨r, hr, hru⟩ := sampleRest_run
  obtain ⟨g, hg, hgu⟩ := sampleGrpc_run
  obtain ⟨w, hw, hwu⟩ := sampleGrpcRaw_run
  have hj : jsonMarshalIndent [r, g, w] = Except.ok [r, g, w] := by
    simp [jsonMarshalIndent, hru, hgu, hwu]
  have hm : main writeFailureEnv =
      ⟨(benchmarkRest 1 writeFailureEnv.rest).events ++
        ((benchmarkGrpc 1 writeFailureEnv.grpc).events ++
          ((benchmarkGrpcRaw 1 writeFailureEnv.grpcRaw).events ++ [])), Except.ok ()⟩ := by
    unfold main
    rw [if_neg (by decide)]
    have e1 : writeFailureEnv.config.MockSize = 1 := rfl
    rw [e1, andThen_ok _ _ r hr, andThen_ok _ _ g hg, andThen_ok _ _ w hw]
    simp only [hj]
    rfl
  refine ⟨by rw [hm], by rw [hm]; rfl, ?_, ?_⟩
  · intro e he
    rw [hm] at he
    simp only [List.append_nil, List.mem_append] at he
    rcases he with he | he | he
    · exact (benchmarkRest_events _ _ e he).1
    · exact (benchmarkGrpc_events _ _ e he).1
    · exact (benchmarkGrpcRaw_events _ _ e he).1
  · intro env
    unfold main
    simp only
    cases env.parseErr
    · simp only [Bool.false_eq_true, if_false]
      refine andThen_result_congr _ _ _ (fun a => ?_)
      refine andThen_result_congr _ _ _ (fun b => ?_)
      refine andThen_result_congr _ _ _ (fun c => ?_)
      cases jsonMarshalIndent [a, b, c] <;> rfl
    · rfl

/-- C11 (defect of the code): the requests of `makeGrpcRequest` and of
`makeGrpcRequestRaw` carry no deadline, as they are made with
`context.Background()`; against a server that never answers such a request never
returns.  The REST requests are limited to 10s by `restClient.Timeout`, and the
test request of the gRPC benchmarks to 5s. -/
theorem grpc_requests_have_no_deadline :
    (∀ env : GrpcEnv, requestLimit (RequestEnv.grpc env) = none) ∧
    (∀ env : GrpcRawEnv, requestLimit (RequestEnv.grpcRaw env) = none) ∧
    await (requestLimit (RequestEnv.grpc sampleGrpc)) none = none ∧
    await (requestLimit (RequestEnv.grpcRaw sampleGrpcRaw)) none = none ∧
    (∀ env : RestEnv, requestLimit (RequestEnv.rest env) = some (10 * time.Second)) ∧
    await (requestLimit (RequestEnv.rest sampleRest)) none = some (true, 10000000000) ∧
    testRequestContext.deadline = some (5 * time.Second) ∧
    await testRequestContext.deadline none = some (true, 5000000000) := by
  have hrest : makeRestRequestLimit = some (10 * time.Second) := by decide
  refine ⟨fun _ => rfl, fun _ => rfl, rfl, rfl, fun _ => hrest, ?_, ?_, ?_⟩ <;> decide

/-! ## Fixtures and server: lemmas -/

theorem foldl_append_pair {α β γ : Type} (f : γ → α) (g : γ → β) (l : List γ) :
    ∀ (a : List α) (b : List β),
      l.foldl (fun acc k => (acc.1 ++ [f k], acc.2 ++ [g k])) (a, b)
        = (a ++ l.map f, b ++ l.map g) := by
  induction l with
  | nil => intro a b; simp
  | cons x xs ih => intro a b; simp [List.foldl_cons, ih]

theorem generatePopulation_eq (size : Int) (draws : Nat → Draws) :
    generatePopulation size draws =
      ((List.range size.toNat).map
          (fun k : Nat => (generatePerson ((k : Int) + 1) (draws (k + 1))).1),
        (List.range size.toNat).map
          (fun k : Nat => (generatePerson ((k : Int) + 1) (draws (k + 1))).2)) := by
  unfold generatePopulation
  have h := foldl_append_pair
    (fun k : Nat => (generatePerson ((k : Int) + 1) (draws (k + 1))).1)
    (fun k : Nat => (generatePerson ((k : Int) + 1) (draws (k + 1))).2)
    (List.range size.toNat) [] []
  simpa using h

theorem fmtD0_three_natCast (i : Nat) : fmtD0 3 (i : Int) = threeDigits i := by
  unfold fmtD0 threeDigits zeroPad
  have h : ¬ ((i : Int) < 0) := by omega
  rw [if_neg h, Int.natAbs_ofNat]

theorem threeDigits_length (i : Nat) : 3 ≤ (threeDigits i).length := by
  unfold threeDigits
  rw [String.length_append]
  simp only [String.length, List.length_replicate]
  omega

theorem generatePerson_id (index : Int) (r : Draws) :
    (generatePerson index r).1.ID = "p" ++ fmtD0 3 index ∧
    (generatePerson index r).2.Id = "p" ++ fmtD0 3 index := by
  unfold generatePerson
  simp only
  split <;> exact ⟨rfl, rfl⟩

theorem preferences_agree (t : String) (n : Bool) (l : String) (key : String) :
    GoMap.get (((GoMap.empty.set "theme" (JSONValue.string t)).set "notifications"
        (JSONValue.bool n)).set "language" (JSONValue.string l)) key =
      (GoMap.get (((GoMap.empty.set "theme" (PbValue.StringValue t)).set "notifications"
        (PbValue.BoolValue n)).set "language" (PbValue.StringValue l)) key).map
          PbValue.toJSON := by
  have h1 : (("theme" : String) != "notifications") = true := by decide
  have h2 : (("theme" : String) != "language") = true := by decide
  have h3 : (("notifications" : String) != "language") = true := by decide
  simp only [GoMap.get, GoMap.set, GoMap.empty, List.filter, h1, h2, h3, List.lookup]
  cases key == "language" <;> cases key == "notifications" <;> cases key == "theme" <;> rfl

theorem generatePerson_agree (index : Int) (r : Draws) :
    PersonsAgree (generatePerson index r).1 (generatePerson index r).2 := by
  unfold generatePerson PersonsAgree AddressesAgree
  simp only
  split
  · exact ⟨rfl, rfl, rfl, rfl, rfl, rfl, ⟨rfl, rfl, rfl, rfl, rfl⟩, rfl, rfl, rfl, rfl, rfl,
      fun key => preferences_agree _ _ _ key⟩
  · exact ⟨rfl, rfl, rfl, rfl, rfl, rfl, ⟨rfl, rfl, rfl, rfl, rfl⟩, rfl, rfl, rfl, rfl, rfl,
      fun key => preferences_agree _ _ _ key⟩

/-- A turn of `GenerateFixtures` that completes has written the encoded JSON
population and the encoded protobuf population to the two fixture files. -/
theorem generateFixture_ok (codec : Codec) (faults : FileFaults) (size : Int)
    (draws : Nat → Draws) (fs fs2 : FileSystem)
    (h : generateFixture codec faults size draws fs = Except.ok fs2) :
    0 ≤ size ∧
    ∃ jsonData pbData,
      codec.jsonMarshalIndent ⟨(generatePopulation size draws).1⟩ = some jsonData ∧
      codec.protoMarshal ⟨(generatePopulation size draws).2⟩ = some pbData ∧
      fs2 = (fixturePath size "pb", pbData) :: (fixturePath size "json", jsonData) :: fs := by
  unfold generateFixture at h
  split at h
  · exact absurd h (by simp)
  · rename_i hs
    simp only at h
    split at h
    · exact absurd h (by simp)
    · rename_i jsonData hj
      split at h
      · exact absurd h (by simp)
      · rename_i fs1 hw1
        split at h
        · exact absurd h (by simp)
        · rename_i pbData hp
          split at h
          · exact absurd h (by simp)
          · rename_i fs3 hw2
            simp only [Except.ok.injEq] at h
            subst h
            unfold writeFile at hw1 hw2
            split at hw1
            · exact absurd hw1 (by simp)
            · split at hw2
              · exact absurd hw2 (by simp)
              · simp only [Option.some.injEq] at hw1 hw2
                subst hw1
                subst hw2
                exact ⟨by omega, jsonData, pbData, hj, hp, rfl⟩

/-- C13: for every index and every outcome of the random draws `generatePerson`
returns a JSON person and a protobuf person that agree on every field, the
three preferences included; and for every size from zero on the loop of
`GenerateFixtures` builds a JSON population and a protobuf population of
exactly `size` persons each, in which the `i`-th persons (`i = 1..size`) agree
on every field and have the ID `p` followed by `i` with zeros on the left up to
at least three digits. -/
theorem fixtures_populations_agree (size : Int) (hsize : 0 ≤ size) (draws : Nat → Draws) :
    (∀ (index : Int) (r : Draws),
      PersonsAgree (generatePerson index r).1 (generatePerson index r).2) ∧
    (generatePopulation size draws).1.length = size.toNat ∧
    (generatePopulation size draws).2.length = size.toNat ∧
    (∀ i : Nat, 1 ≤ i → (i : Int) ≤ size →
      ∃ j p, (generatePopulation size draws).1[i - 1]? = some j ∧
        (generatePopulation size draws).2[i - 1]? = some p ∧
        j.ID = "p" ++ threeDigits i ∧ p.Id = "p" ++ threeDigits i ∧
        3 ≤ (threeDigits i).length ∧ PersonsAgree j p) := by
  refine ⟨generatePerson_agree, ?_, ?_, ?_⟩
  · rw [generatePopulation_eq]; simp
  · rw [generatePopulation_eq]; simp
  · intro i h1 hi
    have hlt : i - 1 < size.toNat := by omega
    have hcast : (((i - 1 : Nat) : Int) + 1) = (i : Int) := by omega
    refine ⟨(generatePerson (i : Int) (draws i)).1, (generatePerson (i : Int) (draws i)).2,
      ?_, ?_, ?_, ?_, threeDigits_length i, generatePerson_agree _ _⟩
    · rw [generatePopulation_eq]
      simp only [List.getElem?_map, List.getElem?_range hlt, Option.map_some', hcast]
      rw [Nat.sub_add_cancel h1]
    · rw [generatePopulation_eq]
      simp only [List.getElem?_map, List.getElem?_range hlt, Option.map_some', hcast]
      rw [Nat.sub_add_cancel h1]
    · rw [(generatePerson_id _ _).1, fmtD0_three_natCast]
    · rw [(generatePerson_id _ _).2, fmtD0_three_natCast]

theorem fixtures_populations_agree_witness :
    (0 : Int) ≤ 12 ∧
    (generatePopulation 12 (fun _ => sampleDraws)).1.length = 12 ∧
    (generatePopulation 12 (fun _ => sampleDraws)).2.length = 12 ∧
    ∃ j p, (generatePopulation 12 (fun _ => sampleDraws)).1[11]? = some j ∧
      (generatePopulation 12 (fun _ => sampleDraws)).2[11]? = some p ∧
      j.ID = "p012" ∧ p.Id = "p012" ∧ PersonsAgree j p := by
  obtain ⟨-, h1, h2, h3⟩ := fixtures_populations_agree 12 (by decide) (fun _ => sampleDraws)
  obtain ⟨j, p, hj, hp, hid, hpid, -, hag⟩ := h3 12 (by decide) (by decide)
  have ht : "p" ++ threeDigits 12 = "p012" := by decide
  rw [ht] at hid hpid
  exact ⟨by decide, h1, h2, j, p, hj, hp, hid, hpid, hag⟩

/-- C12: after a call of the server's `initialize` that returned `nil`, the
bytes that `GetPopulationRaw` returns in `Data` decode with `proto.Unmarshal` to
the very message that `GetPopulation` returns, for every request. -/
theorem raw_data_decodes_to_population (codec : Codec) (faults : FileFaults) (size : Int)
    (draws : Nat → Nat → Draws) (st0 st : ServerState) (fs : FileSystem)
    (h : initServer codec faults size draws st0 fs = InitOutcome.done st)
    (req req2 : GetPopulationRequest) :
    ∃ m, GetPopulation st req = some m ∧
      codec.protoUnmarshal (GetPopulationRaw st req2).Data = some m := by
  unfold initServer at h
  split at h
  · exact absurd h (by simp)
  · split at h
    · exact absurd h (by simp)
    · split at h
      · exact absurd h (by simp)
      · split at h
        · exact absurd h (by simp)
        · split at h
          · exact absurd h (by simp)
          · rename_i pbData _ pbResponse hdec
            simp only [InitOutcome.done.injEq] at h
            subst h
            exact ⟨pbResponse, rfl, hdec⟩

theorem raw_data_decodes_to_population_witness :
    ∃ m, GetPopulation ⟨some ⟨[]⟩, some ⟨[]⟩, [2]⟩ ⟨⟩ = some m ∧
      sampleCodec.protoUnmarshal (GetPopulationRaw ⟨some ⟨[]⟩, some ⟨[]⟩, [2]⟩ ⟨⟩).Data = some m :=
  raw_data_decodes_to_population sampleCodec noFaults 2 (fun _ _ => sampleDraws)
    ServerState.initial ⟨some ⟨[]⟩, some ⟨[]⟩, [2]⟩ [] (by rfl) ⟨⟩ ⟨⟩

end Benchmark
